import Mathlib

/-!
# Schedule management system: appointments, conflict detection, event fan-out

A shallow embedding of the Go sources

* `internal/models/appointment.go`  (records, sentinel errors, request validation),
* `internal/service/appointment_service.go` (the orchestrating service, the subscriber
  registry and `ValidateAppointmentTime`),
* `internal/repository/appointment_repository.go` (the PostgreSQL-backed store),
* `internal/grpc/server.go` (the transport handlers and `handleServiceError`).

Modelling conventions.

* A `time.Time` is the instant it denotes, an integer number of nanoseconds counted from the
  zero instant of Go (`time.Time{}`), so `IsZero` is equality with `0`.
* A `time.Duration` is a signed 64-bit nanosecond count; `Time.Sub` saturates as in Go.
* A Go `error` result is `Option Error` (`none` is `nil`); a `(*T, error)` result is `Except`.
* Every reading of the clock, every `uuid.New()` and every failure of the database driver is
  an explicit argument of the function that performs it.
* A buffered channel is the list of its pending elements together with its capacity.
-/

namespace time

/-- An instant: nanoseconds since the zero instant `time.Time{}`. -/
abbrev Time := Int

/-- A `time.Duration`: nanoseconds, an int64 in Go. -/
abbrev Duration := Int

def Nanosecond : Duration := 1
def Microsecond : Duration := 1000 * Nanosecond
def Millisecond : Duration := 1000 * Microsecond
def Second : Duration := 1000 * Millisecond
def Minute : Duration := 60 * Second
def Hour : Duration := 60 * Minute

/-- The constant `maxDuration` of package time: `1<<63 - 1`. -/
def maxDuration : Duration := 2 ^ 63 - 1

/-- The constant `minDuration` of package time: `-1 << 63`. -/
def minDuration : Duration := -(2 ^ 63)

/-- The method `t.IsZero()`. -/
def IsZero (t : Time) : Bool := decide (t = 0)

/-- The method `t.Before(u)`. -/
def Before (t u : Time) : Bool := decide (t < u)

/-- The method `t.After(u)`. -/
def After (t u : Time) : Bool := decide (u < t)

/-- The method `t.Equal(u)`. -/
def Equal (t u : Time) : Bool := decide (t = u)

/-- The method `t.Sub(u)`: the duration `t - u`, saturated to the range of `Duration`. -/
def Sub (t u : Time) : Duration :=
  if t - u > maxDuration then maxDuration
  else if t - u < minDuration then minDuration
  else t - u

end time

namespace uuid

/-- A `uuid.UUID`, read as the number its sixteen bytes denote. -/
abbrev UUID := Nat

/-- The value `uuid.Nil`: all bytes zero. -/
def Nil : UUID := 0

end uuid

namespace models

open time uuid

/-- The seven sentinel errors of package models, and `other` for every error value that is
none of them (the `fmt.Errorf` wrappers of the repository), carrying its text. -/
inductive Error where
  | ErrAppointmentNotFound
  | ErrAppointmentConflict
  | ErrInvalidTitle
  | ErrInvalidTime
  | ErrInvalidTimeRange
  | ErrInvalidID
  | ErrPastTime
  | other (msg : String)
  deriving DecidableEq, Repr

structure Appointment where
  ID : UUID
  Title : String
  StartTime : Time
  EndTime : Time
  CreatedAt : Time
  UpdatedAt : Time
  deriving DecidableEq, Repr

structure CreateAppointmentRequest where
  Title : String
  StartTime : Time
  EndTime : Time
  deriving DecidableEq, Repr

structure UpdateAppointmentRequest where
  ID : UUID
  Title : String
  StartTime : Time
  EndTime : Time
  deriving DecidableEq, Repr

structure ListAppointmentsRequest where
  Page : Int
  Limit : Int
  Search : String
  StartDate : Time
  EndDate : Time
  deriving DecidableEq, Repr

structure ListAppointmentsResponse where
  Appointments : List Appointment
  Total : Int
  Page : Int
  Limit : Int
  deriving DecidableEq, Repr

/-- The method `(*CreateAppointmentRequest).Validate`; `now` is the value of `time.Now()`. -/
def CreateAppointmentRequest.Validate (req : CreateAppointmentRequest) (now : Time) :
    Option Error :=
  if req.Title = "" then some Error.ErrInvalidTitle
  else if IsZero req.StartTime || IsZero req.EndTime then some Error.ErrInvalidTime
  else if After req.StartTime req.EndTime || Equal req.StartTime req.EndTime then
    some Error.ErrInvalidTimeRange
  else if Before req.StartTime now then some Error.ErrPastTime
  else none

/-- The method `(*UpdateAppointmentRequest).Validate`. It does not read the clock. -/
def UpdateAppointmentRequest.Validate (req : UpdateAppointmentRequest) : Option Error :=
  if req.ID = uuid.Nil then some Error.ErrInvalidID
  else if req.Title = "" then some Error.ErrInvalidTitle
  else if IsZero req.StartTime || IsZero req.EndTime then some Error.ErrInvalidTime
  else if After req.StartTime req.EndTime || Equal req.StartTime req.EndTime then
    some Error.ErrInvalidTimeRange
  else none

end models

namespace service

open time uuid models

/-- The function `ValidateAppointmentTime`; `now` is the value of `time.Now()`. -/
def ValidateAppointmentTime (now startTime endTime : Time) : Option Error :=
  if Before startTime now then some Error.ErrPastTime
  else if Before endTime startTime || Equal endTime startTime then
    some Error.ErrInvalidTimeRange
  else if Sub endTime startTime < 15 * Minute then some Error.ErrInvalidTimeRange
  else if Sub endTime startTime > 8 * Hour then some Error.ErrInvalidTimeRange
  else none

inductive EventType where
  | EventTypeCreated
  | EventTypeUpdated
  | EventTypeDeleted
  deriving DecidableEq, Repr

/-- The struct `AppointmentEvent`; the field `Type` of the source is `Type_` here. -/
structure AppointmentEvent where
  Type_ : EventType
  Appointment : Appointment
  Timestamp : Time
  deriving DecidableEq, Repr

/-- A value of type `chan AppointmentEvent`: the reference that is its identity, the events
pending in its buffer (oldest first) and the capacity given to `make`. -/
structure Chan where
  ref : Nat
  buf : List AppointmentEvent
  cap : Nat
  deriving DecidableEq, Repr

/-- The statement `select { case ch <- event: default: }`: the send happens when the buffer
has room, otherwise the default branch runs and the channel is left as it is. -/
def Chan.trySend (ch : Chan) (event : AppointmentEvent) : Chan :=
  if ch.buf.length < ch.cap then { ch with buf := ch.buf ++ [event] } else ch

end service

namespace repository

open time uuid models

/-- The interface `AppointmentRepository`. An implementation acts on a store state `σ`; `ε` is
what one call takes from its environment (clock, identity generator, driver failures). Every
method returns its Go result together with the store state it leaves behind. -/
structure AppointmentRepository (σ ε : Type) where
  Create : ε → CreateAppointmentRequest → σ → Except Error Appointment × σ
  GetByID : ε → UUID → σ → Except Error Appointment × σ
  Update : ε → UpdateAppointmentRequest → σ → Except Error Appointment × σ
  Delete : ε → UUID → σ → Option Error × σ
  List : ε → ListAppointmentsRequest → σ → Except Error ListAppointmentsResponse × σ
  CheckConflict : ε → Time → Time → Option UUID → σ → Except Error Bool × σ

/-- The rows of table `appointments`, in insertion order. -/
abbrev DB := List Appointment

/-- The places where a call of `database/sql` can return an error of the driver. -/
inductive Stage where
  | BeginTx
  | Query
  | Exec
  | Commit
  | RowsAffected
  | Count
  | Scan
  deriving DecidableEq, Repr

/-- What one repository call takes from its environment: the value of `uuid.New()`, the two
readings of `time.Now()` (the second also stands for SQL `NOW()`), the text of the driver
error at each stage (`none`: the stage succeeds), and the full-text match
`to_tsvector(title) @@ plainto_tsquery(search)` of PostgreSQL as a function of title and
search string. -/
structure Env where
  newUUID : UUID
  now : Time
  now2 : Time
  fault : Stage → Option String
  tsMatch : String → String → Bool

/-- Modelled from the spec: the SQL function `check_appointment_conflict(start, end [, id])`
of migration `001_create_appointments.sql`, which is not among the sources. Section 4.2: two
intervals `[s1,e1)` and `[s2,e2)` conflict iff `s1 < e2` and `s2 < e1`; when an identity is
supplied the appointment with that identity is left out of the comparison set. -/
def check_appointment_conflict (db : DB) (startTime endTime : Time)
    (excludeID : Option UUID) : Bool :=
  db.any fun a =>
    decide (some a.ID ≠ excludeID) && decide (startTime < a.EndTime) &&
      decide (a.StartTime < endTime)

/-- The method `(*appointmentRepository).Create`. A failure before the commit rolls the
transaction back, so the rows are those from before the call. -/
def Create (env : Env) (req : CreateAppointmentRequest) (db : DB) :
    Except Error Appointment × DB :=
  match env.fault Stage.BeginTx with
  | some e => (.error (.other ("failed to begin transaction: " ++ e)), db)
  | none =>
    match env.fault Stage.Query with
    | some e => (.error (.other ("failed to check conflicts: " ++ e)), db)
    | none =>
      if check_appointment_conflict db req.StartTime req.EndTime none then
        (.error .ErrAppointmentConflict, db)
      else
        let appointment : Appointment :=
          { ID := env.newUUID, Title := req.Title, StartTime := req.StartTime,
            EndTime := req.EndTime, CreatedAt := env.now, UpdatedAt := env.now2 }
        match env.fault Stage.Exec with
        | some e => (.error (.other ("failed to create appointment: " ++ e)), db)
        | none =>
          match env.fault Stage.Commit with
          | some e => (.error (.other ("failed to commit transaction: " ++ e)), db)
          | none => (.ok appointment, db ++ [appointment])

/-- The method `(*appointmentRepository).GetByID`. -/
def GetByID (env : Env) (id : UUID) (db : DB) : Except Error Appointment × DB :=
  match env.fault Stage.Query with
  | some e => (.error (.other ("failed to get appointment: " ++ e)), db)
  | none =>
    match db.find? (fun a => decide (a.ID = id)) with
    | none => (.error .ErrAppointmentNotFound, db)
    | some a => (.ok a, db)

/-- The row written by `UPDATE appointments SET title, start_time, end_time, updated_at`. -/
def updateRow (req : UpdateAppointmentRequest) (now : Time) (a : Appointment) : Appointment :=
  { a with Title := req.Title, StartTime := req.StartTime, EndTime := req.EndTime,
           UpdatedAt := now }

/-- The method `(*appointmentRepository).Update`. The conflict check comes before the
`UPDATE`, so a conflicting request for an absent identity is answered `ErrAppointmentConflict`. -/
def Update (env : Env) (req : UpdateAppointmentRequest) (db : DB) :
    Except Error Appointment × DB :=
  match env.fault Stage.BeginTx with
  | some e => (.error (.other ("failed to begin transaction: " ++ e)), db)
  | none =>
    match env.fault Stage.Query with
    | some e => (.error (.other ("failed to check conflicts: " ++ e)), db)
    | none =>
      if check_appointment_conflict db req.StartTime req.EndTime (some req.ID) then
        (.error .ErrAppointmentConflict, db)
      else
        match env.fault Stage.Exec with
        | some e => (.error (.other ("failed to update appointment: " ++ e)), db)
        | none =>
          match db.find? (fun a => decide (a.ID = req.ID)) with
          | none => (.error .ErrAppointmentNotFound, db)
          | some a =>
            match env.fault Stage.Commit with
            | some e => (.error (.other ("failed to commit transaction: " ++ e)), db)
            | none =>
              (.ok (updateRow req env.now2 a),
               db.map fun b => if b.ID = req.ID then updateRow req env.now2 b else b)

/-- The method `(*appointmentRepository).Delete`. The statement runs outside a transaction:
when only `RowsAffected` fails, the rows are already gone. -/
def Delete (env : Env) (id : UUID) (db : DB) : Option Error × DB :=
  match env.fault Stage.Exec with
  | some e => (some (.other ("failed to delete appointment: " ++ e)), db)
  | none =>
    let rest := db.filter fun a => decide (a.ID ≠ id)
    match env.fault Stage.RowsAffected with
    | some e => (some (.other ("failed to get rows affected: " ++ e)), rest)
    | none =>
      if db.length - rest.length = 0 then (some .ErrAppointmentNotFound, rest)
      else (none, rest)

/-- A Go `int`: the value of an integer in two's complement on 64 bits. -/
def wrapInt (n : Int) : Int := (n + 2 ^ 63) % 2 ^ 64 - 2 ^ 63

/-- The `WHERE` clause that `List` builds from the request. -/
def listFilter (env : Env) (req : ListAppointmentsRequest) (a : Appointment) : Bool :=
  (req.Search = "" || env.tsMatch a.Title req.Search) &&
  (IsZero req.StartDate || decide (a.StartTime ≥ req.StartDate)) &&
  (IsZero req.EndDate || decide (a.EndTime ≤ req.EndDate))

/-- The method `(*appointmentRepository).List`. Rows with equal `start_time` are returned in
insertion order; PostgreSQL rejects a negative `OFFSET`. -/
def List (env : Env) (req : ListAppointmentsRequest) (db : DB) :
    Except Error ListAppointmentsResponse × DB :=
  let page := if req.Page ≤ 0 then 1 else req.Page
  let limit := if req.Limit ≤ 0 then 20 else req.Limit
  let selected := db.filter (listFilter env req)
  match env.fault Stage.Count with
  | some e => (.error (.other ("failed to get total count: " ++ e)), db)
  | none =>
    let offset := wrapInt ((page - 1) * limit)
    match env.fault Stage.Query with
    | some e => (.error (.other ("failed to list appointments: " ++ e)), db)
    | none =>
      if offset < 0 then
        (.error (.other "failed to list appointments: pq: OFFSET must not be negative"), db)
      else
        match env.fault Stage.Scan with
        | some e => (.error (.other ("failed to scan appointment: " ++ e)), db)
        | none =>
          let ordered := selected.insertionSort fun a b => a.StartTime ≤ b.StartTime
          (.ok { Appointments := (ordered.drop offset.toNat).take limit.toNat,
                 Total := selected.length, Page := page, Limit := limit }, db)

/-- The value of the variable `offset` in `List`: `(req.Page - 1) * req.Limit` after the two
defaults, computed in the 64-bit `int` of Go. -/
def listOffset (req : ListAppointmentsRequest) : Int :=
  wrapInt (((if req.Page ≤ 0 then 1 else req.Page) - 1) *
    (if req.Limit ≤ 0 then 20 else req.Limit))

/-- The method `(*appointmentRepository).CheckConflict`. The listing of this method stops
after its two queries; a driver error is taken to be wrapped as in the other methods. -/
def CheckConflict (env : Env) (startTime endTime : Time) (excludeID : Option UUID) (db : DB) :
    Except Error Bool × DB :=
  match env.fault Stage.Query with
  | some e => (.error (.other ("failed to check conflict: " ++ e)), db)
  | none => (.ok (check_appointment_conflict db startTime endTime excludeID), db)

/-- The value `NewAppointmentRepository(db)`: the PostgreSQL-backed implementation. -/
def appointmentRepository : AppointmentRepository DB Env where
  Create := Create
  GetByID := GetByID
  Update := Update
  Delete := Delete
  List := List
  CheckConflict := CheckConflict

/-- The relation `ORDER BY start_time ASC` is total. -/
instance startTime_total :
    IsTotal Appointment (fun a b => a.StartTime ≤ b.StartTime) :=
  ⟨fun a b => le_total a.StartTime b.StartTime⟩

/-- The relation `ORDER BY start_time ASC` is transitive. -/
instance startTime_trans :
    IsTrans Appointment (fun a b => a.StartTime ≤ b.StartTime) :=
  ⟨fun _ _ _ hab hbc => le_trans hab hbc⟩

/-- Invariant: no two rows of the table carry the same identity. -/
def uniqueIDs (db : DB) : Prop := (db.map fun a => a.ID).Nodup

/-- Invariant: rows with different identities do not overlap, by the half-open rule. -/
def noOverlap (db : DB) : Prop :=
  ∀ A ∈ db, ∀ B ∈ db, A.ID ≠ B.ID → ¬ (A.StartTime < B.EndTime ∧ B.StartTime < A.EndTime)

/-- The tables that the repository can leave behind, starting from the empty table, after any
sequence of `Create`, `Update` and `Delete` calls with any requests, clock readings and
driver failures. The identity that `uuid.New()` hands to `Create` is one that no stored
appointment carries. -/
inductive Reachable : DB → Prop where
  | empty : Reachable []
  | create (env : Env) (req : CreateAppointmentRequest) (db : DB) :
      Reachable db → env.newUUID ∉ (db.map fun a => a.ID) → Reachable (Create env req db).2
  | update (env : Env) (req : UpdateAppointmentRequest) (db : DB) :
      Reachable db → Reachable (Update env req db).2
  | delete (env : Env) (id : UUID) (db : DB) :
      Reachable db → Reachable (Delete env id db).2

end repository

namespace service

open time uuid models repository

/-- The struct `appointmentService`: the state of the repository behind field `repo` and the
key set of the map `subscribers` (a channel is a key at most once). The repository
implementation itself is an argument of every method. -/
structure appointmentService (σ : Type) where
  repo : σ
  subscribers : List Chan

/-- The function `NewAppointmentService`. -/
def NewAppointmentService {σ : Type} (repo : σ) : appointmentService σ :=
  { repo := repo, subscribers := [] }

/-- The method `notifySubscribers`, on the subscriber set alone. The iteration order of the
map does not matter: each channel is offered the event once, by a non-blocking send. -/
def notifySubscribers (event : AppointmentEvent) (subscribers : List Chan) : List Chan :=
  subscribers.map fun subscriber => subscriber.trySend event

/-- The method `SubscribeToUpdates`; `ref` is the reference of the channel that `make`
allocates. The assignment `s.subscribers[ch] = true` adds the key, replacing an entry of the
same reference if the map had one. -/
def SubscribeToUpdates {σ : Type} (ref : Nat) (s : appointmentService σ) :
    Chan × appointmentService σ :=
  let ch : Chan := { ref := ref, buf := [], cap := 100 }
  (ch, { s with subscribers := (s.subscribers.filter fun c => decide (c.ref ≠ ref)) ++ [ch] })

/-- The method `CreateAppointment`. `now` is the clock read by `Validate`, `env` what the
repository call takes from its environment, `ts` the clock read for the event. -/
def CreateAppointment {σ ε : Type} (R : AppointmentRepository σ ε) (s : appointmentService σ)
    (req : CreateAppointmentRequest) (now : Time) (env : ε) (ts : Time) :
    Except Error Appointment × appointmentService σ :=
  match req.Validate now with
  | some err => (.error err, s)
  | none =>
    match R.Create env req s.repo with
    | (.error err, st) => (.error err, { s with repo := st })
    | (.ok appointment, st) =>
      (.ok appointment,
       { repo := st,
         subscribers := notifySubscribers
           { Type_ := .EventTypeCreated, Appointment := appointment, Timestamp := ts }
           s.subscribers })

/-- The method `GetAppointment`. -/
def GetAppointment {σ ε : Type} (R : AppointmentRepository σ ε) (s : appointmentService σ)
    (id : UUID) (env : ε) : Except Error Appointment × appointmentService σ :=
  if id = uuid.Nil then (.error .ErrInvalidID, s)
  else
    match R.GetByID env id s.repo with
    | (.error err, st) => (.error err, { s with repo := st })
    | (.ok appointment, st) => (.ok appointment, { s with repo := st })

/-- The method `UpdateAppointment`. -/
def UpdateAppointment {σ ε : Type} (R : AppointmentRepository σ ε) (s : appointmentService σ)
    (req : UpdateAppointmentRequest) (env : ε) (ts : Time) :
    Except Error Appointment × appointmentService σ :=
  match req.Validate with
  | some err => (.error err, s)
  | none =>
    match R.Update env req s.repo with
    | (.error err, st) => (.error err, { s with repo := st })
    | (.ok appointment, st) =>
      (.ok appointment,
       { repo := st,
         subscribers := notifySubscribers
           { Type_ := .EventTypeUpdated, Appointment := appointment, Timestamp := ts }
           s.subscribers })

/-- The method `DeleteAppointment`; `env` serves the `GetByID` call, `env2` the `Delete`. -/
def DeleteAppointment {σ ε : Type} (R : AppointmentRepository σ ε) (s : appointmentService σ)
    (id : UUID) (env env2 : ε) (ts : Time) : Option Error × appointmentService σ :=
  if id = uuid.Nil then (some .ErrInvalidID, s)
  else
    match R.GetByID env id s.repo with
    | (.error err, st) => (some err, { s with repo := st })
    | (.ok appointment, st) =>
      match R.Delete env2 id st with
      | (some err, st2) => (some err, { s with repo := st2 })
      | (none, st2) =>
        (none,
         { repo := st2,
           subscribers := notifySubscribers
             { Type_ := .EventTypeDeleted, Appointment := appointment, Timestamp := ts }
             s.subscribers })

/-- The method `ListAppointments`. -/
def ListAppointments {σ ε : Type} (R : AppointmentRepository σ ε) (s : appointmentService σ)
    (req : ListAppointmentsRequest) (env : ε) :
    Except Error ListAppointmentsResponse × appointmentService σ :=
  let req1 := if req.Page ≤ 0 then { req with Page := 1 } else req
  let req2 := if req1.Limit ≤ 0 then { req1 with Limit := 20 } else req1
  let req3 := if req2.Limit > 100 then { req2 with Limit := 100 } else req2
  match R.List env req3 s.repo with
  | (.error err, st) => (.error err, { s with repo := st })
  | (.ok response, st) => (.ok response, { s with repo := st })

/-- The request as the three assignments at the head of `ListAppointments` leave it, which
is the request the method passes to the repository. -/
def listDefaults (req : ListAppointmentsRequest) : ListAppointmentsRequest :=
  let req1 := if req.Page ≤ 0 then { req with Page := 1 } else req
  let req2 := if req1.Limit ≤ 0 then { req1 with Limit := 20 } else req1
  if req2.Limit > 100 then { req2 with Limit := 100 } else req2

/-- The two channel types of the service: `chan AppointmentEvent`, the type of the keys of
the map `subscribers`, and `<-chan AppointmentEvent`, the result type of `SubscribeToUpdates`
and the parameter type of `UnsubscribeFromUpdates`. -/
inductive ChanType where
  | Bidirectional
  | ReceiveOnly
  deriving DecidableEq, Repr

/-- The comma-ok form `ch.(chan AppointmentEvent)` for an operand whose type is `t`: the
assertion holds when that type is `chan AppointmentEvent`, and then gives the channel. An
operand of type `<-chan AppointmentEvent` has a different type; as it is moreover not of
interface type, the Go compiler rejects the expression for it. -/
def assertBidirectional (t : ChanType) (ch : Chan) : Option Chan :=
  match t with
  | .Bidirectional => some ch
  | .ReceiveOnly => none

/-- The method `UnsubscribeFromUpdates`; `t` is the type of its operand `ch`, which the
signature fixes to `<-chan AppointmentEvent`. In the guarded branch `delete` removes the key
from the map and `close` closes the channel, which then is no part of the service state. -/
def UnsubscribeFromUpdates {σ : Type} (t : ChanType) (ch : Chan) (s : appointmentService σ) :
    appointmentService σ :=
  match assertBidirectional t ch with
  | some readOnlyChan =>
    { s with subscribers := s.subscribers.filter fun c => decide (c.ref ≠ readOnlyChan.ref) }
  | none => s

end service

namespace grpc

open time uuid models repository service

/-- The status codes of `google.golang.org/grpc/codes` that the server uses. -/
inductive Code where
  | NotFound
  | AlreadyExists
  | InvalidArgument
  | Internal
  deriving DecidableEq, Repr

/-- The error built by `status.Errorf(code, message)`. -/
structure Status where
  code : Code
  message : String
  deriving DecidableEq, Repr

/-- The message `pb.CreateAppointmentRequest`: an absent timestamp is `none`, a present one
is the instant `AsTime()` gives. -/
structure CreateAppointmentRequest where
  Title : String
  StartTime : Option Time
  EndTime : Option Time
  deriving DecidableEq, Repr

/-- The message `pb.UpdateAppointmentRequest`. -/
structure UpdateAppointmentRequest where
  Id : String
  Title : String
  StartTime : Option Time
  EndTime : Option Time
  deriving DecidableEq, Repr

/-- The method `handleServiceError`. -/
def handleServiceError (err : Error) : Status :=
  match err with
  | .ErrAppointmentNotFound => ⟨.NotFound, "appointment not found"⟩
  | .ErrAppointmentConflict =>
    ⟨.AlreadyExists, "appointment time conflicts with existing appointment"⟩
  | .ErrInvalidTitle => ⟨.InvalidArgument, "invalid title: title cannot be empty"⟩
  | .ErrInvalidTime =>
    ⟨.InvalidArgument, "invalid time: start time and end time are required"⟩
  | .ErrInvalidTimeRange =>
    ⟨.InvalidArgument, "invalid time range: start time must be before end time and appointments must be 15 minutes to 8 hours long"⟩
  | .ErrInvalidID => ⟨.InvalidArgument, "invalid ID: ID cannot be empty"⟩
  | .ErrPastTime =>
    ⟨.InvalidArgument, "invalid time: cannot schedule appointments in the past"⟩
  | .other _ => ⟨.Internal, "internal server error"⟩

/-- The handler `(*AppointmentServer).CreateAppointment`. `now0` is the clock read by
`ValidateAppointmentTime`; the other arguments are those of the service call. The reply is
the appointment that `appointmentToProto` renders field by field. -/
def CreateAppointment {σ ε : Type} (R : AppointmentRepository σ ε) (s : appointmentService σ)
    (req : CreateAppointmentRequest) (now0 now : Time) (env : ε) (ts : Time) :
    Except Status Appointment × appointmentService σ :=
  if req.Title = "" then (.error ⟨.InvalidArgument, "title is required"⟩, s)
  else
    match req.StartTime, req.EndTime with
    | some startTime, some endTime =>
      match ValidateAppointmentTime now0 startTime endTime with
      | some err => (.error (handleServiceError err), s)
      | none =>
        match service.CreateAppointment R s
            { Title := req.Title, StartTime := startTime, EndTime := endTime } now env ts with
        | (.error err, s1) => (.error (handleServiceError err), s1)
        | (.ok appointment, s1) => (.ok appointment, s1)
    | _, _ => (.error ⟨.InvalidArgument, "start_time and end_time are required"⟩, s)

/-- The handler `(*AppointmentServer).UpdateAppointment`. `parse` is `uuid.Parse`, giving the
identity or the text of its error. -/
def UpdateAppointment {σ ε : Type} (parse : String → Except String UUID)
    (R : AppointmentRepository σ ε) (s : appointmentService σ)
    (req : UpdateAppointmentRequest) (now0 : Time) (env : ε) (ts : Time) :
    Except Status Appointment × appointmentService σ :=
  match parse req.Id with
  | .error e => (.error ⟨.InvalidArgument, "invalid appointment ID: " ++ e⟩, s)
  | .ok id =>
    if req.Title = "" then (.error ⟨.InvalidArgument, "title is required"⟩, s)
    else
      match req.StartTime, req.EndTime with
      | some startTime, some endTime =>
        match ValidateAppointmentTime now0 startTime endTime with
        | some err => (.error (handleServiceError err), s)
        | none =>
          match service.UpdateAppointment R s
              { ID := id, Title := req.Title, StartTime := startTime, EndTime := endTime }
              env ts with
          | (.error err, s1) => (.error (handleServiceError err), s1)
          | (.ok appointment, s1) => (.ok appointment, s1)
      | _, _ => (.error ⟨.InvalidArgument, "start_time and end_time are required"⟩, s)

end grpc

/-! ## Concrete inputs used by the witnesses and counterexamples -/

namespace Examples

open time uuid models repository service

/-- An environment in which the driver never fails: `uuid.New()` gives `id`, the clock
reads `now`, and the full-text match accepts every title. -/
def quietEnv (id : UUID) (now : Time) : Env :=
  { newUUID := id, now := now, now2 := now, fault := fun _ => none,
    tsMatch := fun _ _ => true }

/-- An environment in which the driver fails at `stage` with the text `msg`. -/
def faultyEnv (stage : Stage) (msg : String) : Env :=
  { newUUID := 1, now := 0, now2 := 0,
    fault := fun st => if st = stage then some msg else none,
    tsMatch := fun _ _ => true }

/-- A service over the PostgreSQL-backed repository with an empty table and no subscriber. -/
def emptyService : appointmentService DB := NewAppointmentService []

/-- A create request for five minutes, starting one hour after the zero instant. -/
def fiveMinuteRequest : models.CreateAppointmentRequest :=
  { Title := "standup", StartTime := Hour, EndTime := Hour + 5 * Minute }

/-- The appointment that `fiveMinuteRequest` becomes under `quietEnv 1 0`. -/
def fiveMinuteAppointment : Appointment :=
  { ID := 1, Title := "standup", StartTime := Hour, EndTime := Hour + 5 * Minute,
    CreatedAt := 0, UpdatedAt := 0 }

/-- A stored appointment of thirty minutes, starting one hour after the zero instant. -/
def storedAppointment : Appointment :=
  { ID := 7, Title := "review", StartTime := Hour, EndTime := Hour + 30 * Minute,
    CreatedAt := 5, UpdatedAt := 5 }

/-- The create request that `storedAppointment` comes from, under `quietEnv 7 5`. -/
def reviewRequest : models.CreateAppointmentRequest :=
  { Title := "review", StartTime := Hour, EndTime := Hour + 30 * Minute }

/-- A subscriber channel made by `SubscribeToUpdates` that holds no event. -/
def idleChan : Chan := { ref := 1, buf := [], cap := 100 }

/-- The event that reports `storedAppointment` as updated. -/
def storedEvent : AppointmentEvent :=
  { Type_ := .EventTypeUpdated, Appointment := storedAppointment, Timestamp := 9 }

/-- A subscriber channel made by `SubscribeToUpdates` whose buffer is full. -/
def fullChan : Chan := { ref := 2, buf := List.replicate 100 storedEvent, cap := 100 }

/-- A service over the PostgreSQL-backed repository that stores `storedAppointment` and has
an idle and a saturated subscriber. -/
def busyService : appointmentService DB :=
  { repo := [storedAppointment], subscribers := [idleChan, fullChan] }

/-- A create request whose interval overlaps that of `storedAppointment`. -/
def overlappingRequest : models.CreateAppointmentRequest :=
  { Title := "retro", StartTime := Hour + 10 * Minute, EndTime := Hour + 50 * Minute }

/-- A create request for the half hour that follows `storedAppointment`. -/
def adjacentRequest : models.CreateAppointmentRequest :=
  { Title := "retro", StartTime := Hour + 30 * Minute, EndTime := Hour + 60 * Minute }

/-- The appointment that `adjacentRequest` becomes under `quietEnv 8 0`. -/
def adjacentAppointment : Appointment :=
  { ID := 8, Title := "retro", StartTime := Hour + 30 * Minute, EndTime := Hour + 60 * Minute,
    CreatedAt := 0, UpdatedAt := 0 }

/-- A title of 256 characters. -/
def longTitle : String := String.mk (List.replicate 256 'a')

/-- A table of 25 one-hour appointments, identities 1 to 25, inserted latest first. -/
def twentyFive : DB :=
  (List.range 25).map fun i =>
    { ID := i + 1, Title := "slot", StartTime := (100 - 2 * (i : Int)) * Hour,
      EndTime := (101 - 2 * (i : Int)) * Hour, CreatedAt := 0, UpdatedAt := 0 }

/-- A list request without search text or date window. -/
def pageRequest (page limit : Int) : ListAppointmentsRequest :=
  { Page := page, Limit := limit, Search := "", StartDate := 0, EndDate := 0 }

/-- A stand-in for `uuid.Parse`: the text "7" is the identity 7, anything else is an error. -/
def parseSeven (text : String) : Except String UUID :=
  if text = "7" then .ok 7 else .error "invalid UUID format"

end Examples

/-! ## Theorems -/

section Lemmas

open time uuid models repository service

theorem Minute_eq : Minute = 60000000000 := by decide

theorem Hour_eq : Hour = 3600000000000 := by decide

/-- The outcome of `ValidateAppointmentTime` when the start is not in the past, by cases on
the mathematical difference `endTime - startTime`. -/
theorem validateAppointmentTime_eq (now startTime endTime : Time) (h : now ≤ startTime) :
    ValidateAppointmentTime now startTime endTime =
      if 15 * Minute ≤ endTime - startTime ∧ endTime - startTime ≤ 8 * Hour then none
      else some Error.ErrInvalidTimeRange := by
  simp only [ValidateAppointmentTime, Before, Equal, time.Sub, maxDuration, minDuration,
    Minute_eq, Hour_eq, Bool.or_eq_true, decide_eq_true_eq]
  dsimp only [Time, Duration] at *
  split_ifs <;> first | rfl | omega

/-- A create request that `Validate` rejects is answered with that error, the service state
untouched and no method of the repository applied. -/
theorem createAppointment_of_invalid {σ ε : Type} (R : AppointmentRepository σ ε)
    (s : appointmentService σ) (req : models.CreateAppointmentRequest) (now : Time) (env : ε)
    (ts : Time) (err : Error) (h : req.Validate now = some err) :
    service.CreateAppointment R s req now env ts = (.error err, s) := by
  simp only [service.CreateAppointment, h]

/-- An update request that `Validate` rejects is answered with that error, the service state
untouched and no method of the repository applied. -/
theorem updateAppointment_of_invalid {σ ε : Type} (R : AppointmentRepository σ ε)
    (s : appointmentService σ) (req : models.UpdateAppointmentRequest) (env : ε)
    (ts : Time) (err : Error) (he : req.Validate = some err) :
    service.UpdateAppointment R s req env ts = (.error err, s) := by
  simp only [service.UpdateAppointment, he]

/-- A valid update request is handed to the method `Update` of the repository, whose result
is the result of the call. -/
theorem updateAppointment_of_valid {σ ε : Type} (R : AppointmentRepository σ ε)
    (s : appointmentService σ) (req : models.UpdateAppointmentRequest) (env : ε)
    (ts : Time) (h : req.Validate = none) :
    (service.UpdateAppointment R s req env ts).1 = (R.Update env req s.repo).1 ∧
      (service.UpdateAppointment R s req env ts).2.repo = (R.Update env req s.repo).2 := by
  simp only [service.UpdateAppointment, h]
  rcases hU : R.Update env req s.repo with ⟨r, st⟩
  cases r <;> simp

/-- The method `Validate` of an update request, by cases. -/
theorem update_validate_eq_none (req : models.UpdateAppointmentRequest) :
    req.Validate = none ↔
      req.ID ≠ uuid.Nil ∧ req.Title ≠ "" ∧ req.StartTime ≠ 0 ∧ req.EndTime ≠ 0 ∧
        req.StartTime < req.EndTime := by
  simp only [models.UpdateAppointmentRequest.Validate, IsZero, After, Equal, Bool.or_eq_true,
    decide_eq_true_eq]
  dsimp only [Time] at *
  constructor
  · intro h
    split_ifs at h with h1 h2 h3 h4
    refine ⟨h1, h2, ?_, ?_, ?_⟩ <;> omega
  · rintro ⟨h1, h2, h3, h4, h5⟩
    rw [if_neg h1, if_neg h2, if_neg (by omega), if_neg (by omega)]

/-- A successful `Create` of the PostgreSQL-backed repository found no conflict, built the
appointment from the request and the environment, and appended it to the table. -/
theorem repository_create_ok (env : Env) (req : models.CreateAppointmentRequest) (db : DB)
    (a : Appointment) (db1 : DB) (h : repository.Create env req db = (.ok a, db1)) :
    check_appointment_conflict db req.StartTime req.EndTime none = false ∧
      a = { ID := env.newUUID, Title := req.Title, StartTime := req.StartTime,
            EndTime := req.EndTime, CreatedAt := env.now, UpdatedAt := env.now2 } ∧
      db1 = db ++ [a] := by
  unfold repository.Create at h
  rcases h1 : env.fault Stage.BeginTx with _ | e1
  · rcases h2 : env.fault Stage.Query with _ | e2
    · rcases h3 : check_appointment_conflict db req.StartTime req.EndTime none
      · rcases h4 : env.fault Stage.Exec with _ | e4
        · rcases h5 : env.fault Stage.Commit with _ | e5
          · simp only [h1, h2, h3, h4, h5, Bool.false_eq_true, if_false, Prod.mk.injEq,
              Except.ok.injEq] at h
            obtain ⟨ha, hdb⟩ := h
            subst ha
            exact ⟨rfl, rfl, hdb.symm⟩
          · simp [h1, h2, h3, h4, h5] at h
        · simp [h1, h2, h3, h4] at h
      · simp [h1, h2, h3] at h
    · simp [h1, h2] at h
  · simp [h1] at h

/-- A successful `CreateAppointment` of the service validated the request, obtained the
appointment from the method `Create` of the repository and offered the Created event to
every subscriber. -/
theorem service_createAppointment_ok {σ ε : Type} (R : AppointmentRepository σ ε)
    (s : appointmentService σ) (req : models.CreateAppointmentRequest) (now : Time) (env : ε)
    (ts : Time) (a : Appointment) (s1 : appointmentService σ)
    (h : service.CreateAppointment R s req now env ts = (.ok a, s1)) :
    req.Validate now = none ∧
      (R.Create env req s.repo).1 = .ok a ∧
      s1 = { repo := (R.Create env req s.repo).2,
             subscribers := notifySubscribers
               { Type_ := .EventTypeCreated, Appointment := a, Timestamp := ts }
               s.subscribers } := by
  unfold service.CreateAppointment at h
  rcases hV : req.Validate now with _ | err
  · rcases hC : R.Create env req s.repo with ⟨r, st⟩
    rcases r with e | b
    · simp [hV, hC] at h
    · simp only [hV, hC, Prod.mk.injEq, Except.ok.injEq] at h
      obtain ⟨hb, hs1⟩ := h
      subst hb
      exact ⟨rfl, rfl, hs1.symm⟩
  · simp [hV] at h

/-- A successful `CreateAppointment` of the gRPC handler had both timestamps, passed
`ValidateAppointmentTime` and then succeeded in the service. -/
theorem grpc_createAppointment_ok {σ ε : Type} (R : AppointmentRepository σ ε)
    (s : appointmentService σ) (req : grpc.CreateAppointmentRequest) (now0 now : Time)
    (env : ε) (ts : Time) (a : Appointment) (s1 : appointmentService σ)
    (h : grpc.CreateAppointment R s req now0 now env ts = (.ok a, s1)) :
    ∃ startTime endTime, req.StartTime = some startTime ∧ req.EndTime = some endTime ∧
      ValidateAppointmentTime now0 startTime endTime = none ∧
      service.CreateAppointment R s
        { Title := req.Title, StartTime := startTime, EndTime := endTime } now env ts =
          (.ok a, s1) := by
  unfold grpc.CreateAppointment at h
  split_ifs at h with htitle
  · simp at h
  · rcases hs : req.StartTime with _ | startTime
    · simp [hs] at h
    · rcases he : req.EndTime with _ | endTime
      · simp [hs, he] at h
      · rcases hv : ValidateAppointmentTime now0 startTime endTime with _ | err
        · refine ⟨startTime, endTime, rfl, rfl, hv, ?_⟩
          simp only [hs, he, hv] at h
          rcases hS : service.CreateAppointment R s
              { Title := req.Title, StartTime := startTime, EndTime := endTime } now env ts
            with ⟨r, s2⟩
          rcases r with e | b
          · simp [hS] at h
          · simpa [hS] using h
        · simp [hs, he, hv] at h

/-- A non-blocking send to a channel with room appends the event to its buffer. -/
theorem trySend_of_room (ch : Chan) (event : AppointmentEvent) (h : ch.buf.length < ch.cap) :
    ch.trySend event = { ch with buf := ch.buf ++ [event] } := by
  simp only [Chan.trySend, h, if_true]

/-- A non-blocking send to a full channel leaves the channel as it is. -/
theorem trySend_of_full (ch : Chan) (event : AppointmentEvent) (h : ¬ ch.buf.length < ch.cap) :
    ch.trySend event = ch := by
  simp only [Chan.trySend, h, if_false]

/-- The subscriber at a position after `notifySubscribers` is the subscriber that was at that
position, after one non-blocking send. -/
theorem notifySubscribers_getElem? (event : AppointmentEvent) (subscribers : List Chan)
    (i : Nat) :
    (notifySubscribers event subscribers)[i]? =
      (subscribers[i]?).map fun ch => ch.trySend event := by
  simp only [notifySubscribers, List.getElem?_map]

/-- A service made by `NewAppointmentService` has no subscriber. -/
theorem newAppointmentService_subscribers {σ : Type} (repo : σ) :
    ∀ ch ∈ (NewAppointmentService repo).subscribers, ch.cap = 100 ∧ ch.buf.length ≤ 100 := by
  intro ch hch
  simp [NewAppointmentService] at hch

/-- The method `SubscribeToUpdates` keeps every channel of the subscriber set at capacity 100
with at most 100 pending events. -/
theorem subscribeToUpdates_subscribers {σ : Type} (ref : Nat) (s : appointmentService σ)
    (h : ∀ ch ∈ s.subscribers, ch.cap = 100 ∧ ch.buf.length ≤ 100) :
    ∀ ch ∈ (SubscribeToUpdates ref s).2.subscribers, ch.cap = 100 ∧ ch.buf.length ≤ 100 := by
  intro ch hch
  simp only [SubscribeToUpdates, List.mem_append, List.mem_filter, List.mem_singleton] at hch
  rcases hch with ⟨hmem, -⟩ | rfl
  · exact h ch hmem
  · simp

/-- The method `notifySubscribers` keeps every channel of the subscriber set at capacity 100
with at most 100 pending events. -/
theorem notifySubscribers_subscribers (event : AppointmentEvent) (subscribers : List Chan)
    (h : ∀ ch ∈ subscribers, ch.cap = 100 ∧ ch.buf.length ≤ 100) :
    ∀ ch ∈ notifySubscribers event subscribers, ch.cap = 100 ∧ ch.buf.length ≤ 100 := by
  intro ch hch
  simp only [notifySubscribers, List.mem_map] at hch
  obtain ⟨c, hc, rfl⟩ := hch
  obtain ⟨hcap, hlen⟩ := h c hc
  unfold Chan.trySend
  split_ifs with hroom
  · refine ⟨hcap, ?_⟩
    simp only [List.length_append, List.length_singleton]
    omega
  · exact ⟨hcap, hlen⟩

/-- The conflict check answers no exactly when no row other than the excluded one overlaps
the candidate interval. -/
theorem check_appointment_conflict_eq_false (db : DB) (startTime endTime : Time)
    (excludeID : Option UUID) :
    check_appointment_conflict db startTime endTime excludeID = false ↔
      ∀ a ∈ db, some a.ID ≠ excludeID → ¬ (startTime < a.EndTime ∧ a.StartTime < endTime) := by
  simp only [check_appointment_conflict, List.any_eq_false, Bool.and_eq_true,
    decide_eq_true_eq, not_and, ne_eq]
  constructor
  · intro h a ha hid hs
    exact h a ha ⟨hid, hs⟩
  · intro h a ha hh
    exact h a ha hh.1 hh.2

/-- The table after `Create`: the old one, or, when the check found no conflict, the old one
followed by the new appointment. -/
theorem create_table (env : Env) (req : models.CreateAppointmentRequest) (db : DB) :
    (repository.Create env req db).2 = db ∨
      (check_appointment_conflict db req.StartTime req.EndTime none = false ∧
        (repository.Create env req db).2 = db ++
          [{ ID := env.newUUID, Title := req.Title, StartTime := req.StartTime,
             EndTime := req.EndTime, CreatedAt := env.now, UpdatedAt := env.now2 }]) := by
  unfold repository.Create
  rcases env.fault Stage.BeginTx with _ | e1
  · rcases env.fault Stage.Query with _ | e2
    · rcases h3 : check_appointment_conflict db req.StartTime req.EndTime none
      · rcases env.fault Stage.Exec with _ | e4
        · rcases env.fault Stage.Commit with _ | e5
          · right; simp
          · left; simp
        · left; simp
      · left; simp
    · left; simp
  · left; simp

/-- The table after `Update`: the old one, or, when the check found no conflict with a row
of another identity, the old one with the rows of the request's identity rewritten. -/
theorem update_table (env : Env) (req : models.UpdateAppointmentRequest) (db : DB) :
    (repository.Update env req db).2 = db ∨
      (check_appointment_conflict db req.StartTime req.EndTime (some req.ID) = false ∧
        (repository.Update env req db).2 =
          db.map fun b => if b.ID = req.ID then updateRow req env.now2 b else b) := by
  unfold repository.Update
  rcases env.fault Stage.BeginTx with _ | e1
  · rcases env.fault Stage.Query with _ | e2
    · rcases h3 : check_appointment_conflict db req.StartTime req.EndTime (some req.ID)
      · rcases env.fault Stage.Exec with _ | e4
        · rcases hf : List.find? (fun a => decide (a.ID = req.ID)) db with _ | a
          · left; simp [hf]
          · rcases env.fault Stage.Commit with _ | e5
            · right; simp [hf]
            · left; simp [hf]
        · left; simp
      · left; simp
    · left; simp
  · left; simp

/-- The table after `Delete`: the old one, or the old one without the rows of the given
identity. -/
theorem delete_table (env : Env) (id : UUID) (db : DB) :
    (repository.Delete env id db).2 = db ∨
      (repository.Delete env id db).2 = db.filter fun a => decide (a.ID ≠ id) := by
  unfold repository.Delete
  rcases env.fault Stage.Exec with _ | e1
  · rcases env.fault Stage.RowsAffected with _ | e2
    · right
      simp only
      split_ifs <;> rfl
    · right; simp
  · left; simp

/-- The method `Create` with a fresh identity preserves both invariants of the table. -/
theorem create_preserves (env : Env) (req : models.CreateAppointmentRequest) (db : DB)
    (hfresh : env.newUUID ∉ (db.map fun a => a.ID)) (hu : uniqueIDs db) (hn : noOverlap db) :
    uniqueIDs (repository.Create env req db).2 ∧ noOverlap (repository.Create env req db).2 := by
  rcases create_table env req db with h | ⟨hchk, h⟩
  · rw [h]; exact ⟨hu, hn⟩
  · rw [h]
    rw [check_appointment_conflict_eq_false] at hchk
    constructor
    · unfold uniqueIDs at hu ⊢
      rw [List.map_append, List.nodup_append]
      refine ⟨hu, by simp, ?_⟩
      intro x hx hx2
      simp only [List.map_cons, List.map_nil, List.mem_singleton] at hx2
      subst hx2
      exact hfresh hx
    · intro A hA B hB hne
      simp only [List.mem_append, List.mem_singleton] at hA hB
      rcases hA with hA | rfl <;> rcases hB with hB | rfl
      · exact hn A hA B hB hne
      · intro hov
        exact hchk A hA (by simp) ⟨hov.2, hov.1⟩
      · intro hov
        exact hchk B hB (by simp) ⟨hov.1, hov.2⟩
      · exact absurd rfl hne

/-- The method `Update` preserves both invariants of the table. -/
theorem update_preserves (env : Env) (req : models.UpdateAppointmentRequest) (db : DB)
    (hu : uniqueIDs db) (hn : noOverlap db) :
    uniqueIDs (repository.Update env req db).2 ∧ noOverlap (repository.Update env req db).2 := by
  rcases update_table env req db with h | ⟨hchk, h⟩
  · rw [h]; exact ⟨hu, hn⟩
  · rw [h]
    rw [check_appointment_conflict_eq_false] at hchk
    have hid : ∀ b : Appointment,
        (if b.ID = req.ID then updateRow req env.now2 b else b).ID = b.ID := by
      intro b
      split_ifs <;> rfl
    constructor
    · unfold uniqueIDs at hu ⊢
      rw [List.map_map]
      have : ((fun a : Appointment => a.ID) ∘
          fun b => if b.ID = req.ID then updateRow req env.now2 b else b) =
          fun a : Appointment => a.ID := by
        funext b
        exact hid b
      rw [this]
      exact hu
    · intro A hA B hB hne
      simp only [List.mem_map] at hA hB
      obtain ⟨A0, hA0, rfl⟩ := hA
      obtain ⟨B0, hB0, rfl⟩ := hB
      rw [hid A0, hid B0] at hne
      by_cases hAid : A0.ID = req.ID <;> by_cases hBid : B0.ID = req.ID
      · exact absurd (hAid.trans hBid.symm) hne
      · simp only [hAid, hBid, if_true, if_false, updateRow]
        intro hov
        exact hchk B0 hB0 (by simpa using hBid) ⟨hov.1, hov.2⟩
      · simp only [hAid, hBid, if_true, if_false, updateRow]
        intro hov
        exact hchk A0 hA0 (by simpa using hAid) ⟨hov.2, hov.1⟩
      · simp only [hAid, hBid, if_false]
        exact hn A0 hA0 B0 hB0 hne

/-- The method `Delete` preserves both invariants of the table. -/
theorem delete_preserves (env : Env) (id : UUID) (db : DB)
    (hu : uniqueIDs db) (hn : noOverlap db) :
    uniqueIDs (repository.Delete env id db).2 ∧ noOverlap (repository.Delete env id db).2 := by
  rcases delete_table env id db with h | h
  · rw [h]; exact ⟨hu, hn⟩
  · rw [h]
    constructor
    · unfold uniqueIDs at hu ⊢
      exact hu.sublist ((List.filter_sublist db).map _)
    · intro A hA B hB hne
      exact hn A (List.mem_of_mem_filter hA) B (List.mem_of_mem_filter hB) hne

/-- Every reachable table satisfies both invariants. -/
theorem reachable_invariants (db : DB) (h : Reachable db) : uniqueIDs db ∧ noOverlap db := by
  induction h with
  | empty =>
    constructor
    · simp [uniqueIDs]
    · intro A hA
      simp at hA
  | create env req db _ hfresh ih => exact create_preserves env req db hfresh ih.1 ih.2
  | update env req db _ ih => exact update_preserves env req db ih.1 ih.2
  | delete env id db _ ih => exact delete_preserves env id db ih.1 ih.2

/-- With an operand of type `chan AppointmentEvent` the guard of `UnsubscribeFromUpdates`
holds, and the method removes exactly the subscriber with the reference of the handle. -/
theorem unsubscribeFromUpdates_of_bidirectional {σ : Type} (ch : Chan)
    (s : appointmentService σ) :
    (UnsubscribeFromUpdates ChanType.Bidirectional ch s).repo = s.repo ∧
      (UnsubscribeFromUpdates ChanType.Bidirectional ch s).subscribers =
        s.subscribers.filter fun c => decide (c.ref ≠ ch.ref) := by
  simp only [UnsubscribeFromUpdates, assertBidirectional, and_self]

/-- The method `ListAppointments` hands the request with its defaults set to the method
`List` of the repository and returns what that method returns. -/
theorem listAppointments_eq {σ ε : Type} (R : AppointmentRepository σ ε)
    (s : appointmentService σ) (req : ListAppointmentsRequest) (env : ε) :
    (ListAppointments R s req env).1 = (R.List env (listDefaults req) s.repo).1 ∧
      (ListAppointments R s req env).2 =
        { repo := (R.List env (listDefaults req) s.repo).2, subscribers := s.subscribers } := by
  unfold ListAppointments
  simp only [listDefaults]
  split <;> rename_i h <;> simp [h]

/-- A value in the range of a 64-bit `int` is its own two's-complement reading. -/
theorem wrapInt_of_range (n : Int) (h0 : -(2 ^ 63) ≤ n) (h1 : n < 2 ^ 63) : wrapInt n = n := by
  unfold wrapInt
  omega

/-- The result of `List` when the driver reports no error and the offset is not negative. -/
theorem list_of_quiet (env : Env) (req : ListAppointmentsRequest) (db : DB)
    (hc : env.fault Stage.Count = none) (hq : env.fault Stage.Query = none)
    (hs : env.fault Stage.Scan = none) (hoff : 0 ≤ listOffset req) :
    repository.List env req db =
      (.ok { Appointments :=
               (((db.filter (listFilter env req)).insertionSort
                  fun a b => a.StartTime ≤ b.StartTime).drop (listOffset req).toNat).take
                (if req.Limit ≤ 0 then 20 else req.Limit).toNat,
             Total := (db.filter (listFilter env req)).length,
             Page := if req.Page ≤ 0 then 1 else req.Page,
             Limit := if req.Limit ≤ 0 then 20 else req.Limit }, db) := by
  unfold listOffset at hoff
  simp only [repository.List, hc, hq, hs, listOffset, not_lt.mpr hoff, if_false]

/-- The handle that `SubscribeToUpdates` returns has type `<-chan AppointmentEvent`, for which
the guard `ch.(chan AppointmentEvent)` of `UnsubscribeFromUpdates` does not hold. The call
leaves the service as it was: the handle is still a member of the subscriber set, and a later
publish still offers it the event. -/
theorem unsubscribeFromUpdates_of_receiveOnly {σ : Type} (ref : Nat) (s : appointmentService σ)
    (event : AppointmentEvent) :
    UnsubscribeFromUpdates ChanType.ReceiveOnly (SubscribeToUpdates ref s).1
        (SubscribeToUpdates ref s).2 = (SubscribeToUpdates ref s).2 ∧
      (SubscribeToUpdates ref s).1 ∈
        (UnsubscribeFromUpdates ChanType.ReceiveOnly (SubscribeToUpdates ref s).1
          (SubscribeToUpdates ref s).2).subscribers ∧
      { (SubscribeToUpdates ref s).1 with buf := [event] } ∈
        notifySubscribers event
          (UnsubscribeFromUpdates ChanType.ReceiveOnly (SubscribeToUpdates ref s).1
            (SubscribeToUpdates ref s).2).subscribers := by
  have h1 : UnsubscribeFromUpdates ChanType.ReceiveOnly (SubscribeToUpdates ref s).1
      (SubscribeToUpdates ref s).2 = (SubscribeToUpdates ref s).2 := by
    simp only [UnsubscribeFromUpdates, assertBidirectional]
  have h2 : (SubscribeToUpdates ref s).1 ∈ (SubscribeToUpdates ref s).2.subscribers := by
    simp [SubscribeToUpdates]
  refine ⟨h1, ?_, ?_⟩
  · rw [h1]; exact h2
  · rw [h1]
    simp only [notifySubscribers, List.mem_map]
    refine ⟨(SubscribeToUpdates ref s).1, h2, ?_⟩
    simp [SubscribeToUpdates, Chan.trySend]

end Lemmas

section Claims

open time uuid models repository service

/-- C1. No-overlap invariant: in every table reachable from the empty one by `Create`
(with a fresh identity), `Update` and `Delete` calls of the repository, the conflict check
answering by the rule `s1 < e2 ∧ s2 < e1` and `Update` excluding the updated identity, no
row occurs twice and any two distinct stored appointments `A`, `B` satisfy
`¬ (A.start < B.end ∧ B.start < A.end)`. -/
theorem no_overlap_invariant (db : DB) (h : Reachable db) :
    db.Nodup ∧
      ∀ A ∈ db, ∀ B ∈ db, A ≠ B →
        ¬ (A.StartTime < B.EndTime ∧ B.StartTime < A.EndTime) := by
  obtain ⟨hu, hn⟩ := reachable_invariants db h
  refine ⟨List.Nodup.of_map _ hu, ?_⟩
  intro A hA B hB hne
  apply hn A hA B hB
  intro hid
  exact hne (List.inj_on_of_nodup_map hu hA hB hid)

/-- Witness of C1: the table after creating a half-hour appointment and then the half hour
that follows it is reachable, and its two rows do not overlap. -/
theorem no_overlap_invariant_witness :
    Reachable [Examples.storedAppointment, Examples.adjacentAppointment] ∧
      ¬ (Examples.storedAppointment.StartTime < Examples.adjacentAppointment.EndTime ∧
         Examples.adjacentAppointment.StartTime < Examples.storedAppointment.EndTime) :=
  have h1 : Reachable [Examples.storedAppointment] :=
    Reachable.create (Examples.quietEnv 7 5) Examples.reviewRequest [] Reachable.empty
      (by decide)
  have h2 : Reachable [Examples.storedAppointment, Examples.adjacentAppointment] :=
    Reachable.create (Examples.quietEnv 8 0) Examples.adjacentRequest
      [Examples.storedAppointment] h1 (by decide)
  ⟨h2, (no_overlap_invariant _ h2).2 Examples.storedAppointment (by simp)
      Examples.adjacentAppointment (by simp) (by decide)⟩

/-- C3. Duration bounds: when the start is not before `now`, `ValidateAppointmentTime`
succeeds exactly when `15 minutes ≤ end - start ≤ 8 hours`; an interval of exactly 15 minutes
and one of exactly 8 hours succeed, one of 14 minutes and one of 8 hours + 1 minute fail. -/
theorem validateAppointmentTime_duration_bounds (now startTime endTime : Time)
    (h : ¬ startTime < now) :
    (ValidateAppointmentTime now startTime endTime = none ↔
        15 * Minute ≤ endTime - startTime ∧ endTime - startTime ≤ 8 * Hour) ∧
      ValidateAppointmentTime now startTime (startTime + 15 * Minute) = none ∧
      ValidateAppointmentTime now startTime (startTime + 8 * Hour) = none ∧
      ValidateAppointmentTime now startTime (startTime + 14 * Minute) ≠ none ∧
      ValidateAppointmentTime now startTime (startTime + (8 * Hour + 1 * Minute)) ≠ none := by
  have hle : now ≤ startTime := not_lt.mp h
  dsimp only [Time, Duration] at *
  refine ⟨?_, ?_, ?_, ?_, ?_⟩
  · rw [validateAppointmentTime_eq now startTime endTime hle]
    split_ifs with hc
    · simp [hc]
    · simp only [reduceCtorEq, false_iff]; exact hc
  · rw [validateAppointmentTime_eq now startTime _ hle, Minute_eq, Hour_eq]
    split_ifs with hc
    · rfl
    · dsimp only [Time, Duration] at hc; omega
  · rw [validateAppointmentTime_eq now startTime _ hle, Minute_eq, Hour_eq]
    split_ifs with hc
    · rfl
    · dsimp only [Time, Duration] at hc; omega
  · rw [validateAppointmentTime_eq now startTime _ hle, Minute_eq, Hour_eq]
    split_ifs with hc
    · dsimp only [Time, Duration] at hc; omega
    · simp
  · rw [validateAppointmentTime_eq now startTime _ hle, Minute_eq, Hour_eq]
    split_ifs with hc
    · dsimp only [Time, Duration] at hc; omega
    · simp

/-- Witness of C3: the clock at 1000, a start one hour later, an end 30 minutes after it. -/
theorem validateAppointmentTime_duration_bounds_witness :
    ¬ ((1000 + Hour : Time) < 1000) ∧
      ValidateAppointmentTime 1000 (1000 + Hour) (1000 + Hour + 30 * Minute) = none ∧
      ValidateAppointmentTime 1000 (1000 + Hour) (1000 + Hour + 14 * Minute) ≠ none :=
  ⟨by decide,
   ((validateAppointmentTime_duration_bounds 1000 (1000 + Hour) (1000 + Hour + 30 * Minute)
      (by decide)).1).mpr (by decide),
   (validateAppointmentTime_duration_bounds 1000 (1000 + Hour) (1000 + Hour + 30 * Minute)
      (by decide)).2.2.2.1⟩

/-- C5, as stated, fails: with the clock at the zero instant and a start one hour later, an
inverted range, an interval of five minutes and one of nine hours all fail with the same
error `ErrInvalidTimeRange`, and so with the same status for the caller. -/
theorem validateAppointmentTime_failures_not_distinct :
    ValidateAppointmentTime 0 Hour Hour = some Error.ErrInvalidTimeRange ∧
      ValidateAppointmentTime 0 Hour (Hour + 5 * Minute) = some Error.ErrInvalidTimeRange ∧
      ValidateAppointmentTime 0 Hour (Hour + 9 * Hour) = some Error.ErrInvalidTimeRange ∧
      ¬ (ValidateAppointmentTime 0 Hour Hour ≠ ValidateAppointmentTime 0 Hour (Hour + 5 * Minute) ∧
         ValidateAppointmentTime 0 Hour Hour ≠ ValidateAppointmentTime 0 Hour (Hour + 9 * Hour) ∧
         ValidateAppointmentTime 0 Hour (Hour + 5 * Minute) ≠
           ValidateAppointmentTime 0 Hour (Hour + 9 * Hour)) := by
  decide

/-- C5, amended. For a start that is not in the past, an interval with `start ≥ end`, one
with `0 < end - start < 15 minutes` and one with `end - start > 8 hours` all fail with the
single error `ErrInvalidTimeRange`, which `handleServiceError` maps to the single status
`InvalidArgument` whose message names both the ordering and the duration rule. -/
theorem validateAppointmentTime_failures_shared (now startTime endTime : Time)
    (h : ¬ startTime < now)
    (hbad : startTime ≥ endTime ∨ (0 < endTime - startTime ∧ endTime - startTime < 15 * Minute) ∨
      endTime - startTime > 8 * Hour) :
    ValidateAppointmentTime now startTime endTime = some Error.ErrInvalidTimeRange ∧
      grpc.handleServiceError Error.ErrInvalidTimeRange =
        ⟨grpc.Code.InvalidArgument, "invalid time range: start time must be before end time and appointments must be 15 minutes to 8 hours long"⟩ := by
  refine ⟨?_, rfl⟩
  rw [validateAppointmentTime_eq now startTime endTime (not_lt.mp h)]
  split_ifs with hc
  · rw [Minute_eq, Hour_eq] at hc hbad
    dsimp only [Time, Duration] at *
    omega
  · rfl

/-- Witness of the amended C5: the clock at the zero instant, a start one hour later and an
end nine hours after the start. -/
theorem validateAppointmentTime_failures_shared_witness :
    ¬ ((Hour : Time) < 0) ∧ (Hour + 9 * Hour : Time) - Hour > 8 * Hour ∧
      ValidateAppointmentTime 0 Hour (Hour + 9 * Hour) = some Error.ErrInvalidTimeRange :=
  ⟨by decide, by decide,
   (validateAppointmentTime_failures_shared 0 Hour (Hour + 9 * Hour) (by decide)
      (Or.inr (Or.inr (by decide)))).1⟩

/-- C6, as stated, fails twice. (1) Through the gRPC handler `UpdateAppointment`, an update of
the stored appointment 7 to a thirty-minute interval starting before the clock reading
`2 * Hour` is refused with the status of `ErrPastTime`, and the store keeps its row. (2) An
update request with non-nil id and non-empty title whose start is the zero instant (in the
past of a clock at `Hour`) and that lasts thirty minutes is refused by `Validate` with
`ErrInvalidTime`. -/
theorem update_path_rechecks_past :
    grpc.UpdateAppointment Examples.parseSeven appointmentRepository
        { repo := [Examples.storedAppointment], subscribers := [] }
        { Id := "7", Title := "review", StartTime := some (Hour + 10 * Minute),
          EndTime := some (Hour + 40 * Minute) }
        (2 * Hour) (Examples.quietEnv 1 (2 * Hour)) (2 * Hour) =
      (.error ⟨grpc.Code.InvalidArgument,
          "invalid time: cannot schedule appointments in the past"⟩,
        { repo := [Examples.storedAppointment], subscribers := [] }) ∧
      (0 : Time) < Hour ∧
      models.UpdateAppointmentRequest.Validate
        { ID := 7, Title := "review", StartTime := 0, EndTime := 30 * Minute } =
          some Error.ErrInvalidTime := by
  refine ⟨?_, by decide, by decide⟩
  rfl

/-- C6, amended. For an update request with a non-nil id, a non-empty title, start and end
different from the zero instant and `start < end` (so in particular when
`15 minutes ≤ end - start ≤ 8 hours`), and with `start < now`: `Validate` succeeds and the service's
`UpdateAppointment` hands the request to the store's `Update`, returning its result. The gRPC
handler `UpdateAppointment` in front of the service does check the past: for the same request
with `start < now` it answers with the status of `ErrPastTime` and calls neither the service
nor the store. -/
theorem update_validate_ignores_past {σ ε : Type} (R : AppointmentRepository σ ε)
    (s : appointmentService σ) (req : models.UpdateAppointmentRequest) (now : Time)
    (env : ε) (ts : Time) (parse : String → Except String UUID) (text : String)
    (hid : req.ID ≠ uuid.Nil) (htitle : req.Title ≠ "")
    (hs0 : req.StartTime ≠ 0) (he0 : req.EndTime ≠ 0) (hpast : req.StartTime < now)
    (hlt : req.StartTime < req.EndTime)
    (hparse : parse text = .ok req.ID) :
    req.Validate = none ∧
      (service.UpdateAppointment R s req env ts).1 = (R.Update env req s.repo).1 ∧
      (service.UpdateAppointment R s req env ts).2.repo = (R.Update env req s.repo).2 ∧
      grpc.UpdateAppointment parse R s
          { Id := text, Title := req.Title, StartTime := some req.StartTime,
            EndTime := some req.EndTime } now env ts =
        (.error (grpc.handleServiceError Error.ErrPastTime), s) := by
  have hv : req.Validate = none := by
    rw [update_validate_eq_none]
    exact ⟨hid, htitle, hs0, he0, hlt⟩
  refine ⟨hv, (updateAppointment_of_valid R s req env ts hv).1,
    (updateAppointment_of_valid R s req env ts hv).2, ?_⟩
  simp only [grpc.UpdateAppointment, hparse, htitle, if_false, ValidateAppointmentTime, Before,
    hpast, decide_True, if_true]

/-- Witness of the amended C6: the stored appointment 7 is moved to start at `Hour + 10
minutes` while the clock reads `2 * Hour`. -/
theorem update_validate_ignores_past_witness :
    (Hour + 10 * Minute : Time) < 2 * Hour ∧
      (service.UpdateAppointment appointmentRepository
        { repo := [Examples.storedAppointment], subscribers := [] }
        { ID := 7, Title := "review", StartTime := Hour + 10 * Minute,
          EndTime := Hour + 40 * Minute }
        (Examples.quietEnv 1 (2 * Hour)) (2 * Hour)).2.repo =
      (repository.Update (Examples.quietEnv 1 (2 * Hour))
        { ID := 7, Title := "review", StartTime := Hour + 10 * Minute,
          EndTime := Hour + 40 * Minute } [Examples.storedAppointment]).2 :=
  ⟨by decide,
   (update_validate_ignores_past appointmentRepository
      { repo := [Examples.storedAppointment], subscribers := [] }
      { ID := 7, Title := "review", StartTime := Hour + 10 * Minute,
        EndTime := Hour + 40 * Minute }
      (2 * Hour) (Examples.quietEnv 1 (2 * Hour)) (2 * Hour) Examples.parseSeven "7"
      (by decide) (by decide) (by decide) (by decide) (by decide) (by decide)
      rfl).2.2.1⟩

/-- C4, as stated, fails: the service's `CreateAppointment`, given a titled request of five
minutes that starts one hour after the clock reading, returns no error, calls the store and
leaves a stored appointment of five minutes. -/
theorem service_createAppointment_accepts_short :
    Examples.fiveMinuteRequest.Title ≠ "" ∧
      ¬ (Examples.fiveMinuteRequest.StartTime < 0) ∧
      Examples.fiveMinuteRequest.EndTime - Examples.fiveMinuteRequest.StartTime < 15 * Minute ∧
      service.CreateAppointment appointmentRepository Examples.emptyService
          Examples.fiveMinuteRequest 0 (Examples.quietEnv 1 0) 0 =
        (.ok Examples.fiveMinuteAppointment,
          { repo := [Examples.fiveMinuteAppointment], subscribers := [] }) ∧
      Examples.fiveMinuteAppointment.EndTime - Examples.fiveMinuteAppointment.StartTime =
        5 * Minute := by
  refine ⟨by decide, by decide, by decide, ?_, by decide⟩
  rfl

/-- C4, amended. The duration bound is enforced by the gRPC handler `CreateAppointment`, which
runs `ValidateAppointmentTime` before it calls the service; the service's own `Validate`
checks only title, zero instants, `start < end` and the past. For every repository: a
request with a non-empty title and a start not before the clock reading whose
`end - start` is below 15 minutes or above 8 hours is answered by the handler with the
`InvalidArgument` status of `ErrInvalidTimeRange`, the service state untouched and no
repository method applied. Over the PostgreSQL-backed repository, every appointment the
handler returns is stored and has `end - start` between 15 minutes and 8 hours. -/
theorem grpc_createAppointment_enforces_duration :
    (∀ (σ ε : Type) (R : AppointmentRepository σ ε) (s : appointmentService σ)
        (title : String) (startTime endTime now0 now : Time) (env : ε) (ts : Time),
        title ≠ "" → ¬ startTime < now0 →
        (endTime - startTime < 15 * Minute ∨ endTime - startTime > 8 * Hour) →
        grpc.CreateAppointment R s
            { Title := title, StartTime := some startTime, EndTime := some endTime }
            now0 now env ts =
          (.error (grpc.handleServiceError Error.ErrInvalidTimeRange), s)) ∧
    (∀ (s : appointmentService DB) (req : grpc.CreateAppointmentRequest) (now0 now : Time)
        (env : Env) (ts : Time) (a : Appointment) (s1 : appointmentService DB),
        grpc.CreateAppointment appointmentRepository s req now0 now env ts = (.ok a, s1) →
        a ∈ s1.repo ∧ 15 * Minute ≤ a.EndTime - a.StartTime ∧
          a.EndTime - a.StartTime ≤ 8 * Hour) := by
  constructor
  · intro σ ε R s title startTime endTime now0 now env ts htitle hfut hbad
    have hv : ValidateAppointmentTime now0 startTime endTime =
        some Error.ErrInvalidTimeRange := by
      rw [validateAppointmentTime_eq now0 startTime endTime (not_lt.mp hfut)]
      split_ifs with hc
      · rw [Minute_eq, Hour_eq] at hc hbad
        dsimp only [Time, Duration] at *
        omega
      · rfl
    simp only [grpc.CreateAppointment, htitle, if_false, hv]
  · intro s req now0 now env ts a s1 h
    obtain ⟨startTime, endTime, -, -, hv, hS⟩ :=
      grpc_createAppointment_ok appointmentRepository s req now0 now env ts a s1 h
    obtain ⟨-, hC, hs1⟩ := service_createAppointment_ok appointmentRepository s _ now env ts a s1 hS
    have hC2 : repository.Create env
        { Title := req.Title, StartTime := startTime, EndTime := endTime } s.repo =
        (.ok a, (repository.Create env
          { Title := req.Title, StartTime := startTime, EndTime := endTime } s.repo).2) :=
      Prod.ext hC rfl
    obtain ⟨-, ha, hdb⟩ := repository_create_ok env _ s.repo a _ hC2
    have hmem : a ∈ s1.repo := by
      rw [hs1]
      show a ∈ (repository.Create env
          { Title := req.Title, StartTime := startTime, EndTime := endTime } s.repo).2
      rw [hdb]
      simp
    have hfut : now0 ≤ startTime := by
      by_contra hlt
      simp only [ValidateAppointmentTime, Before] at hv
      rw [if_pos (by simpa using hlt)] at hv
      simp at hv
    rw [validateAppointmentTime_eq now0 startTime endTime hfut] at hv
    split_ifs at hv with hc
    refine ⟨hmem, ?_⟩
    rw [ha]
    exact ⟨hc.1, hc.2⟩

/-- Witness of the amended C4: the five-minute request is refused by the handler, and a
thirty-minute request made through the handler is stored with its thirty minutes. -/
theorem grpc_createAppointment_enforces_duration_witness :
    grpc.CreateAppointment appointmentRepository Examples.emptyService
        { Title := "standup", StartTime := some Hour, EndTime := some (Hour + 5 * Minute) }
        0 0 (Examples.quietEnv 1 0) 0 =
      (.error (grpc.handleServiceError Error.ErrInvalidTimeRange), Examples.emptyService) ∧
    (15 * Minute ≤ (Hour + 30 * Minute : Time) - Hour ∧
      (Hour + 30 * Minute : Time) - Hour ≤ 8 * Hour) :=
  ⟨grpc_createAppointment_enforces_duration.1 DB Env appointmentRepository
      Examples.emptyService "standup" Hour (Hour + 5 * Minute) 0 0 (Examples.quietEnv 1 0) 0
      (by decide) (by decide) (Or.inl (by decide)),
   (grpc_createAppointment_enforces_duration.2 Examples.emptyService
      { Title := "review", StartTime := some Hour, EndTime := some (Hour + 30 * Minute) }
      0 0 (Examples.quietEnv 1 0) 0
      { ID := 1, Title := "review", StartTime := Hour, EndTime := Hour + 30 * Minute,
        CreatedAt := 0, UpdatedAt := 0 }
      { repo := [{ ID := 1, Title := "review", StartTime := Hour,
                   EndTime := Hour + 30 * Minute, CreatedAt := 0, UpdatedAt := 0 }],
        subscribers := [] }
      rfl).2⟩

/-- C7. Validation failure is atomic: for every repository and service state, a create
request (update request) whose `Validate` returns an error makes `CreateAppointment`
(`UpdateAppointment`) return exactly that error and no appointment, with the service state
identical to the one before the call. The result does not depend on the repository, so none
of its methods is applied, and the store and every subscriber queue are unchanged. -/
theorem validation_failure_atomic {σ ε : Type} (R : AppointmentRepository σ ε)
    (s : appointmentService σ) (err : Error) :
    (∀ (req : models.CreateAppointmentRequest) (now : Time) (env : ε) (ts : Time),
        req.Validate now = some err →
        service.CreateAppointment R s req now env ts = (.error err, s)) ∧
    (∀ (req : models.UpdateAppointmentRequest) (env : ε) (ts : Time),
        req.Validate = some err →
        service.UpdateAppointment R s req env ts = (.error err, s)) :=
  ⟨fun req now env ts h => createAppointment_of_invalid R s req now env ts err h,
   fun req env ts h => updateAppointment_of_invalid R s req env ts err h⟩

/-- Witness of C7: a create request without title and an update request with the nil
identity, sent to a service with a stored appointment and two subscribers. -/
theorem validation_failure_atomic_witness :
    service.CreateAppointment appointmentRepository Examples.busyService
        { Title := "", StartTime := 2 * Hour, EndTime := 3 * Hour } 0
        (Examples.quietEnv 1 0) 0 =
      (.error Error.ErrInvalidTitle, Examples.busyService) ∧
    service.UpdateAppointment appointmentRepository Examples.busyService
        { ID := uuid.Nil, Title := "review", StartTime := 2 * Hour, EndTime := 3 * Hour }
        (Examples.quietEnv 1 0) 0 =
      (.error Error.ErrInvalidID, Examples.busyService) :=
  ⟨(validation_failure_atomic appointmentRepository Examples.busyService
      Error.ErrInvalidTitle).1 _ 0 (Examples.quietEnv 1 0) 0 (by decide),
   (validation_failure_atomic appointmentRepository Examples.busyService
      Error.ErrInvalidID).2 _ (Examples.quietEnv 1 0) 0 (by decide)⟩

/-- C8. No event without a successful store call: for every repository, when a call of
`CreateAppointment`, `UpdateAppointment` or `DeleteAppointment` reaches the store and a store
method (`Create`; `Update`; `GetByID` or `Delete`) returns an error, whichever error it is,
the service returns that same error and the subscriber set with all its queues is the one
from before the call. -/
theorem store_error_propagates {σ ε : Type} (R : AppointmentRepository σ ε)
    (s : appointmentService σ) (err : Error) (st : σ) :
    (∀ (req : models.CreateAppointmentRequest) (now : Time) (env : ε) (ts : Time),
        req.Validate now = none → R.Create env req s.repo = (.error err, st) →
        service.CreateAppointment R s req now env ts =
          (.error err, { repo := st, subscribers := s.subscribers })) ∧
    (∀ (req : models.UpdateAppointmentRequest) (env : ε) (ts : Time),
        req.Validate = none → R.Update env req s.repo = (.error err, st) →
        service.UpdateAppointment R s req env ts =
          (.error err, { repo := st, subscribers := s.subscribers })) ∧
    (∀ (id : UUID) (env env2 : ε) (ts : Time),
        id ≠ uuid.Nil → R.GetByID env id s.repo = (.error err, st) →
        service.DeleteAppointment R s id env env2 ts =
          (some err, { repo := st, subscribers := s.subscribers })) ∧
    (∀ (id : UUID) (env env2 : ε) (ts : Time) (a : Appointment) (st1 : σ),
        id ≠ uuid.Nil → R.GetByID env id s.repo = (.ok a, st1) →
        R.Delete env2 id st1 = (some err, st) →
        service.DeleteAppointment R s id env env2 ts =
          (some err, { repo := st, subscribers := s.subscribers })) := by
  refine ⟨?_, ?_, ?_, ?_⟩
  · intro req now env ts hv hC
    simp only [service.CreateAppointment, hv, hC]
  · intro req env ts hv hU
    simp only [service.UpdateAppointment, hv, hU]
  · intro id env env2 ts hid hG
    simp only [service.DeleteAppointment, hid, if_false, hG]
  · intro id env env2 ts a st1 hid hG hD
    simp only [service.DeleteAppointment, hid, if_false, hG, hD]

/-- Witness of C8: a create request that overlaps the stored appointment is answered
`ErrAppointmentConflict`, and a delete whose `GetByID` query fails in the driver is answered
with the wrapped driver error; in both cases the two subscribers keep their queues. -/
theorem store_error_propagates_witness :
    service.CreateAppointment appointmentRepository Examples.busyService
        Examples.overlappingRequest 0 (Examples.quietEnv 8 0) 0 =
      (.error Error.ErrAppointmentConflict, Examples.busyService) ∧
    service.DeleteAppointment appointmentRepository Examples.busyService 7
        (Examples.faultyEnv Stage.Query "connection reset") (Examples.quietEnv 8 0) 0 =
      (some (Error.other "failed to get appointment: connection reset"),
        Examples.busyService) :=
  ⟨(store_error_propagates appointmentRepository Examples.busyService
      Error.ErrAppointmentConflict [Examples.storedAppointment]).1
      Examples.overlappingRequest 0 (Examples.quietEnv 8 0) 0 (by decide) rfl,
   (store_error_propagates appointmentRepository Examples.busyService
      (Error.other "failed to get appointment: connection reset")
      [Examples.storedAppointment]).2.2.1 7
      (Examples.faultyEnv Stage.Query "connection reset") (Examples.quietEnv 8 0) 0
      (by decide) rfl⟩

/-- C9. Event fan-out: when `CreateAppointment` succeeds with appointment `a`, that `a` is the
record the store's `Create` returned, the subscriber set has the same members, and every
subscriber registered before the call (a channel of capacity 100 made by
`SubscribeToUpdates`) that held fewer than 100 pending events has its queue extended by
exactly one event, of type Created, carrying `a` and the timestamp read for the event. -/
theorem createAppointment_fan_out {σ ε : Type} (R : AppointmentRepository σ ε)
    (s : appointmentService σ) (req : models.CreateAppointmentRequest) (now : Time) (env : ε)
    (ts : Time) (a : Appointment) (s1 : appointmentService σ)
    (h : service.CreateAppointment R s req now env ts = (.ok a, s1)) :
    (R.Create env req s.repo).1 = .ok a ∧
      s1.subscribers.length = s.subscribers.length ∧
      ∀ (i : Nat) (ch : Chan), s.subscribers[i]? = some ch → ch.cap = 100 →
        ch.buf.length < 100 →
        s1.subscribers[i]? =
          some { ch with buf := ch.buf ++
            [{ Type_ := .EventTypeCreated, Appointment := a, Timestamp := ts }] } := by
  obtain ⟨-, hC, hs1⟩ := service_createAppointment_ok R s req now env ts a s1 h
  refine ⟨hC, ?_, ?_⟩
  · rw [hs1]
    simp only [notifySubscribers, List.length_map]
  · intro i ch hi hcap hlen
    rw [hs1]
    simp only [notifySubscribers_getElem?, hi, Option.map_some']
    rw [trySend_of_room ch _ (by omega)]

/-- Witness of C9: a request for the half hour after the stored appointment succeeds, and the
idle subscriber at position 0 then holds exactly the Created event for the new appointment. -/
theorem createAppointment_fan_out_witness :
    service.CreateAppointment appointmentRepository Examples.busyService
        Examples.adjacentRequest 0 (Examples.quietEnv 8 0) 3 =
      (.ok Examples.adjacentAppointment,
        { repo := [Examples.storedAppointment, Examples.adjacentAppointment],
          subscribers :=
            [{ ref := 1,
               buf := [{ Type_ := .EventTypeCreated, Appointment := Examples.adjacentAppointment,
                         Timestamp := 3 }],
               cap := 100 },
             Examples.fullChan] }) ∧
    (([{ ref := 1,
         buf := [{ Type_ := .EventTypeCreated, Appointment := Examples.adjacentAppointment,
                   Timestamp := 3 }],
         cap := 100 },
       Examples.fullChan] : List Chan)[0]? =
      some { Examples.idleChan with buf := Examples.idleChan.buf ++
        [{ Type_ := .EventTypeCreated, Appointment := Examples.adjacentAppointment,
           Timestamp := 3 }] }) :=
  ⟨rfl,
   (createAppointment_fan_out appointmentRepository Examples.busyService
      Examples.adjacentRequest 0 (Examples.quietEnv 8 0) 3 Examples.adjacentAppointment
      { repo := [Examples.storedAppointment, Examples.adjacentAppointment],
        subscribers :=
          [{ ref := 1,
             buf := [{ Type_ := .EventTypeCreated, Appointment := Examples.adjacentAppointment,
                       Timestamp := 3 }],
             cap := 100 },
           Examples.fullChan] }
      rfl).2.2 0 Examples.idleChan rfl rfl (by decide)⟩

/-- C10. Slow-subscriber isolation: `notifySubscribers` is a total function on subscriber
sets, so a publish always completes; on a set whose channels are those made by
`SubscribeToUpdates` (capacity 100, at most 100 events pending) it keeps the members, leaves
every subscriber that holds 100 pending events exactly as it was, appends the event once to
the queue of every other subscriber, and leaves no queue longer than 100. -/
theorem notifySubscribers_isolation (event : AppointmentEvent) (subscribers : List Chan)
    (h : ∀ ch ∈ subscribers, ch.cap = 100 ∧ ch.buf.length ≤ 100) :
    (notifySubscribers event subscribers).length = subscribers.length ∧
      (∀ (i : Nat) (ch : Chan), subscribers[i]? = some ch → ch.buf.length = 100 →
        (notifySubscribers event subscribers)[i]? = some ch) ∧
      (∀ (i : Nat) (ch : Chan), subscribers[i]? = some ch → ch.buf.length ≠ 100 →
        (notifySubscribers event subscribers)[i]? =
          some { ch with buf := ch.buf ++ [event] }) ∧
      (∀ ch ∈ notifySubscribers event subscribers, ch.cap = 100 ∧ ch.buf.length ≤ 100) := by
  refine ⟨?_, ?_, ?_, notifySubscribers_subscribers event subscribers h⟩
  · simp only [notifySubscribers, List.length_map]
  · intro i ch hi hfull
    have hcap := (h ch (List.getElem?_mem hi)).1
    simp only [notifySubscribers_getElem?, hi, Option.map_some']
    rw [trySend_of_full ch event (by omega)]
  · intro i ch hi hroom
    obtain ⟨hcap, hlen⟩ := h ch (List.getElem?_mem hi)
    simp only [notifySubscribers_getElem?, hi, Option.map_some']
    rw [trySend_of_room ch event (by omega)]

/-- Witness of C10: publishing to an idle and a saturated subscriber delivers the event to the
idle one and leaves the saturated one with its 100 events. -/
theorem notifySubscribers_isolation_witness :
    (∀ ch ∈ [Examples.idleChan, Examples.fullChan], ch.cap = 100 ∧ ch.buf.length ≤ 100) ∧
      (notifySubscribers Examples.storedEvent [Examples.idleChan, Examples.fullChan])[1]? =
        some Examples.fullChan ∧
      (notifySubscribers Examples.storedEvent [Examples.idleChan, Examples.fullChan])[0]? =
        some { Examples.idleChan with buf := [Examples.storedEvent] } :=
  ⟨by decide,
   (notifySubscribers_isolation Examples.storedEvent [Examples.idleChan, Examples.fullChan]
      (by decide)).2.1 1 Examples.fullChan rfl (by decide),
   (notifySubscribers_isolation Examples.storedEvent [Examples.idleChan, Examples.fullChan]
      (by decide)).2.2.1 0 Examples.idleChan rfl (by decide)⟩

/-- C11, on the code: a service without subscribers registers one by `SubscribeToUpdates`
and passes the handle, of type `<-chan AppointmentEvent`, to `UnsubscribeFromUpdates`. The
guard `ch.(chan AppointmentEvent)` does not hold for it, so the subscriber set still holds
the handle after the call, and a later publish delivers the event to it. -/
theorem unsubscribeFromUpdates_keeps_handle :
    (UnsubscribeFromUpdates ChanType.ReceiveOnly
        (SubscribeToUpdates 1 Examples.emptyService).1
        (SubscribeToUpdates 1 Examples.emptyService).2).subscribers = [Examples.idleChan] ∧
      (SubscribeToUpdates 1 Examples.emptyService).1 = Examples.idleChan ∧
      notifySubscribers Examples.storedEvent
        (UnsubscribeFromUpdates ChanType.ReceiveOnly
          (SubscribeToUpdates 1 Examples.emptyService).1
          (SubscribeToUpdates 1 Examples.emptyService).2).subscribers =
        [{ Examples.idleChan with buf := [Examples.storedEvent] }] := by
  refine ⟨?_, rfl, ?_⟩
  · rw [(unsubscribeFromUpdates_of_receiveOnly 1 Examples.emptyService
      Examples.storedEvent).1]
    rfl
  · rw [(unsubscribeFromUpdates_of_receiveOnly 1 Examples.emptyService
      Examples.storedEvent).1]
    rfl

/-- C13, as stated, fails at the nil identity: `GetAppointment` answers `ErrInvalidID` by its
own check, while the store's `GetByID`, asked for the nil identity, answers
`ErrAppointmentNotFound`. -/
theorem getAppointment_nil_not_passed_through :
    service.GetAppointment appointmentRepository Examples.busyService uuid.Nil
        (Examples.quietEnv 1 0) =
      (.error Error.ErrInvalidID, Examples.busyService) ∧
    (appointmentRepository.GetByID (Examples.quietEnv 1 0) uuid.Nil
        Examples.busyService.repo).1 = .error Error.ErrAppointmentNotFound :=
  ⟨rfl, rfl⟩

/-- C13, amended. For every repository and every identity other than the nil identity,
`GetAppointment` returns exactly the result of the store's `GetByID` and leaves the
subscriber set with its queues unchanged; for the nil identity it returns `ErrInvalidID`
with the service state untouched, whatever the repository. -/
theorem getAppointment_passes_through {σ ε : Type} (R : AppointmentRepository σ ε)
    (s : appointmentService σ) (env : ε) :
    (∀ id : UUID, id ≠ uuid.Nil →
        (service.GetAppointment R s id env).1 = (R.GetByID env id s.repo).1 ∧
        (service.GetAppointment R s id env).2.repo = (R.GetByID env id s.repo).2 ∧
        (service.GetAppointment R s id env).2.subscribers = s.subscribers) ∧
      service.GetAppointment R s uuid.Nil env = (.error Error.ErrInvalidID, s) := by
  constructor
  · intro id hid
    simp only [service.GetAppointment, hid, if_false]
    rcases hG : R.GetByID env id s.repo with ⟨r, st⟩
    cases r <;> simp
  · simp only [service.GetAppointment, if_true]

/-- Witness of the amended C13: the stored appointment 7 is read through the service. -/
theorem getAppointment_passes_through_witness :
    (7 : UUID) ≠ uuid.Nil ∧
      (service.GetAppointment appointmentRepository Examples.busyService 7
        (Examples.quietEnv 1 0)).1 = .ok Examples.storedAppointment :=
  ⟨by decide,
   ((getAppointment_passes_through appointmentRepository Examples.busyService
      (Examples.quietEnv 1 0)).1 7 (by decide)).1⟩

/-- C15. Unexpected failures leak no detail: any two errors that are none of the seven
sentinel errors of package models are mapped by `handleServiceError` to the same status,
code `Internal` with the message "internal server error", whatever the errors contain. -/
theorem handleServiceError_generic (e1 e2 : Error)
    (h1 : e1 ≠ .ErrAppointmentNotFound ∧ e1 ≠ .ErrAppointmentConflict ∧
      e1 ≠ .ErrInvalidTitle ∧ e1 ≠ .ErrInvalidTime ∧ e1 ≠ .ErrInvalidTimeRange ∧
      e1 ≠ .ErrInvalidID ∧ e1 ≠ .ErrPastTime)
    (h2 : e2 ≠ .ErrAppointmentNotFound ∧ e2 ≠ .ErrAppointmentConflict ∧
      e2 ≠ .ErrInvalidTitle ∧ e2 ≠ .ErrInvalidTime ∧ e2 ≠ .ErrInvalidTimeRange ∧
      e2 ≠ .ErrInvalidID ∧ e2 ≠ .ErrPastTime) :
    grpc.handleServiceError e1 = grpc.handleServiceError e2 ∧
      grpc.handleServiceError e1 = ⟨grpc.Code.Internal, "internal server error"⟩ := by
  have key : ∀ e : Error,
      (e ≠ .ErrAppointmentNotFound ∧ e ≠ .ErrAppointmentConflict ∧
        e ≠ .ErrInvalidTitle ∧ e ≠ .ErrInvalidTime ∧ e ≠ .ErrInvalidTimeRange ∧
        e ≠ .ErrInvalidID ∧ e ≠ .ErrPastTime) →
      grpc.handleServiceError e = ⟨grpc.Code.Internal, "internal server error"⟩ := by
    intro e he
    cases e with
    | other msg => rfl
    | _ => simp at he
  exact ⟨(key e1 h1).trans (key e2 h2).symm, key e1 h1⟩

/-- Witness of C15: a wrapped driver error and a wrapped transaction error. -/
theorem handleServiceError_generic_witness :
    grpc.handleServiceError (Error.other "failed to get appointment: connection reset") =
      grpc.handleServiceError
        (Error.other "failed to commit transaction: could not serialize access") :=
  (handleServiceError_generic
    (Error.other "failed to get appointment: connection reset")
    (Error.other "failed to commit transaction: could not serialize access")
    (by decide) (by decide)).1

/-- C12, on the code: a create request and an update request whose title has 256 characters
pass `Validate`, and the create request, sent through the gRPC handler and the service,
reaches the store and is stored with its 256-character title. -/
theorem long_title_accepted :
    Examples.longTitle.length = 256 ∧
      models.CreateAppointmentRequest.Validate
        { Title := Examples.longTitle, StartTime := Hour, EndTime := 2 * Hour } 0 = none ∧
      models.UpdateAppointmentRequest.Validate
        { ID := 7, Title := Examples.longTitle, StartTime := Hour, EndTime := 2 * Hour } =
          none ∧
      grpc.CreateAppointment appointmentRepository Examples.emptyService
          { Title := Examples.longTitle, StartTime := some Hour, EndTime := some (2 * Hour) }
          0 0 (Examples.quietEnv 1 0) 0 =
        (.ok { ID := 1, Title := Examples.longTitle, StartTime := Hour, EndTime := 2 * Hour,
               CreatedAt := 0, UpdatedAt := 0 },
          { repo := [{ ID := 1, Title := Examples.longTitle, StartTime := Hour,
                       EndTime := 2 * Hour, CreatedAt := 0, UpdatedAt := 0 }],
            subscribers := [] }) := by
  refine ⟨?_, by decide, by decide, ?_⟩
  · simp only [Examples.longTitle, String.length, List.length_replicate]
  · rfl

/-- C14, as stated, fails where the product `(page - 1) * limit` leaves the range of a
64-bit `int`: for page 4611686018427387905 and limit 4 the product is `2 ^ 64`, the offset
that `List` computes is 0, and `List` returns both rows of a two-row table, although
skipping the first `(page - 1) * limit` matching rows leaves none. -/
theorem list_offset_wraps :
    (1 : Int) ≤ 4611686018427387905 ∧ (1 : Int) ≤ 4 ∧
      listOffset (Examples.pageRequest 4611686018427387905 4) = 0 ∧
      repository.List (Examples.quietEnv 1 0) (Examples.pageRequest 4611686018427387905 4)
          [Examples.storedAppointment, Examples.adjacentAppointment] =
        (.ok { Appointments := [Examples.storedAppointment, Examples.adjacentAppointment],
               Total := 2, Page := 4611686018427387905, Limit := 4 },
          [Examples.storedAppointment, Examples.adjacentAppointment]) ∧
      (([Examples.storedAppointment, Examples.adjacentAppointment].drop
          (((4611686018427387905 : Int) - 1) * 4).toNat).take (4 : Int).toNat = []) := by
  refine ⟨by decide, by decide, by decide, ?_, ?_⟩
  · rfl
  · decide

/-- C14, amended. For every table and list request with `page ≥ 1`, `limit ≥ 1` and
`(page - 1) * limit` in the range of a 64-bit `int`, when the driver reports no error,
`List` returns as `Total` the number of rows matching the filter and as `Appointments` the
matching rows ordered by start time, with the first `(page - 1) * limit` skipped and at most
`limit` kept, `min limit (total - (page - 1) * limit)` rows in all. -/
theorem list_pagination (env : Env) (req : ListAppointmentsRequest) (db : DB)
    (hc : env.fault Stage.Count = none) (hq : env.fault Stage.Query = none)
    (hs : env.fault Stage.Scan = none)
    (hp : 1 ≤ req.Page) (hl : 1 ≤ req.Limit) (hoff : (req.Page - 1) * req.Limit < 2 ^ 63) :
    ∃ ordered : List Appointment,
      ordered.Perm (db.filter (listFilter env req)) ∧
      ordered.Sorted (fun a b => a.StartTime ≤ b.StartTime) ∧
      repository.List env req db =
        (.ok { Appointments :=
                 (ordered.drop ((req.Page - 1) * req.Limit).toNat).take req.Limit.toNat,
               Total := (db.filter (listFilter env req)).length,
               Page := req.Page, Limit := req.Limit }, db) ∧
      ((ordered.drop ((req.Page - 1) * req.Limit).toNat).take req.Limit.toNat).length =
        min req.Limit.toNat
          ((db.filter (listFilter env req)).length - ((req.Page - 1) * req.Limit).toNat) := by
  have hp0 : ¬ req.Page ≤ 0 := by omega
  have hl0 : ¬ req.Limit ≤ 0 := by omega
  have hnn : 0 ≤ (req.Page - 1) * req.Limit := mul_nonneg (by omega) (by omega)
  have hoffset : listOffset req = (req.Page - 1) * req.Limit := by
    simp only [listOffset, hp0, hl0, if_false]
    exact wrapInt_of_range _ (by omega) hoff
  refine ⟨(db.filter (listFilter env req)).insertionSort fun a b => a.StartTime ≤ b.StartTime,
    List.perm_insertionSort _ _, List.sorted_insertionSort _ _, ?_, ?_⟩
  · rw [list_of_quiet env req db hc hq hs (by rw [hoffset]; exact hnn)]
    simp only [hoffset, hp0, hl0, if_false]
  · rw [List.length_take, List.length_drop, (List.perm_insertionSort _ _).length_eq]

/-- Witness of the amended C14: page 2 with limit 10 over a table of 25 matching
appointments gives 10 items and a total of 25. -/
theorem list_pagination_witness :
    (Examples.twentyFive.filter
        (listFilter (Examples.quietEnv 1 0) (Examples.pageRequest 2 10))).length = 25 ∧
      ∃ ordered : List Appointment,
        repository.List (Examples.quietEnv 1 0) (Examples.pageRequest 2 10)
            Examples.twentyFive =
          (.ok { Appointments := (ordered.drop 10).take 10, Total := 25, Page := 2,
                 Limit := 10 }, Examples.twentyFive) ∧
        ((ordered.drop 10).take 10).length = 10 := by
  have hlen : (Examples.twentyFive.filter
      (listFilter (Examples.quietEnv 1 0) (Examples.pageRequest 2 10))).length = 25 := by
    decide
  obtain ⟨ordered, -, -, hList, hn⟩ :=
    list_pagination (Examples.quietEnv 1 0) (Examples.pageRequest 2 10) Examples.twentyFive
      rfl rfl rfl (by decide) (by decide) (by decide)
  refine ⟨hlen, ordered, ?_, ?_⟩
  · rw [hList, hlen]
    rfl
  · rw [hlen] at hn
    exact hn

/-- C16, as stated, fails for a page near the top of the 64-bit `int`: the request with page
9223372036854775807 and limit 100 is passed to the store unchanged, the store computes the
offset `(page - 1) * limit` as -200, and the listing fails on the negative `OFFSET`. -/
theorem listAppointments_offset_negative :
    listDefaults (Examples.pageRequest 9223372036854775807 100) =
        Examples.pageRequest 9223372036854775807 100 ∧
      listOffset (listDefaults (Examples.pageRequest 9223372036854775807 100)) = -200 ∧
      (ListAppointments appointmentRepository Examples.emptyService
          (Examples.pageRequest 9223372036854775807 100) (Examples.quietEnv 1 0)).1 =
        .error (Error.other "failed to list appointments: pq: OFFSET must not be negative") := by
  refine ⟨by decide, by decide, ?_⟩
  rfl

/-- C16, amended. For every list request, `ListAppointments` passes to the store's `List`
the request with `page ≤ 0` replaced by 1, `limit ≤ 0` replaced by 20, `limit > 100`
replaced by 100 and every other field unchanged; that request has `page ≥ 1` and
`1 ≤ limit ≤ 100`, and setting the defaults twice equals setting them once. When moreover
`page ≤ 92233720368547759`, as for every 32-bit page of the gRPC handler, the offset the
store computes is the exact product `(page - 1) * limit` and is not negative. -/
theorem listAppointments_normalises {σ ε : Type} (R : AppointmentRepository σ ε)
    (s : appointmentService σ) (req : ListAppointmentsRequest) (env : ε) :
    (ListAppointments R s req env).1 = (R.List env (listDefaults req) s.repo).1 ∧
      (listDefaults req).Page = (if req.Page ≤ 0 then 1 else req.Page) ∧
      (listDefaults req).Limit =
        (if req.Limit ≤ 0 then 20 else if req.Limit > 100 then 100 else req.Limit) ∧
      (listDefaults req).Search = req.Search ∧
      (listDefaults req).StartDate = req.StartDate ∧
      (listDefaults req).EndDate = req.EndDate ∧
      1 ≤ (listDefaults req).Page ∧
      1 ≤ (listDefaults req).Limit ∧ (listDefaults req).Limit ≤ 100 ∧
      listDefaults (listDefaults req) = listDefaults req ∧
      ((listDefaults req).Page ≤ 92233720368547759 →
        listOffset (listDefaults req) =
            ((listDefaults req).Page - 1) * (listDefaults req).Limit ∧
          0 ≤ listOffset (listDefaults req)) := by
  have hPage : (listDefaults req).Page = (if req.Page ≤ 0 then 1 else req.Page) := by
    unfold listDefaults
    simp only
    split_ifs <;> rfl
  have hLimit : (listDefaults req).Limit =
      (if req.Limit ≤ 0 then 20 else if req.Limit > 100 then 100 else req.Limit) := by
    unfold listDefaults
    simp only
    split_ifs <;> first | rfl | (simp at *)
  have hSearch : (listDefaults req).Search = req.Search := by
    unfold listDefaults
    simp only
    split_ifs <;> rfl
  have hStart : (listDefaults req).StartDate = req.StartDate := by
    unfold listDefaults
    simp only
    split_ifs <;> rfl
  have hEnd : (listDefaults req).EndDate = req.EndDate := by
    unfold listDefaults
    simp only
    split_ifs <;> rfl
  have hP1 : 1 ≤ (listDefaults req).Page := by
    rw [hPage]; split_ifs <;> omega
  have hL1 : 1 ≤ (listDefaults req).Limit := by
    rw [hLimit]; split_ifs <;> omega
  have hL100 : (listDefaults req).Limit ≤ 100 := by
    rw [hLimit]; split_ifs <;> omega
  refine ⟨(listAppointments_eq R s req env).1, hPage, hLimit, hSearch, hStart, hEnd, hP1, hL1,
    hL100, ?_, ?_⟩
  · have hP0 : ¬ (listDefaults req).Page ≤ 0 := by omega
    have hL0 : ¬ (listDefaults req).Limit ≤ 0 := by omega
    have hLle : ¬ (listDefaults req).Limit > 100 := by omega
    generalize listDefaults req = r at hP0 hL0 hLle
    simp only [listDefaults, hP0, hL0, hLle, if_false]
  · intro hbound
    have hP0 : ¬ (listDefaults req).Page ≤ 0 := by omega
    have hL0 : ¬ (listDefaults req).Limit ≤ 0 := by omega
    have hnn : 0 ≤ ((listDefaults req).Page - 1) * (listDefaults req).Limit :=
      mul_nonneg (by omega) (by omega)
    have hle : ((listDefaults req).Page - 1) * (listDefaults req).Limit ≤
        92233720368547758 * 100 :=
      mul_le_mul (by omega) hL100 (by omega) (by omega)
    have hoffset : listOffset (listDefaults req) =
        ((listDefaults req).Page - 1) * (listDefaults req).Limit := by
      simp only [listOffset, hP0, hL0, if_false]
      exact wrapInt_of_range _ (by omega) (by omega)
    exact ⟨hoffset, by rw [hoffset]; exact hnn⟩

/-- Witness of the amended C16: page 0 with limit 500 becomes page 1 with limit 100, and the
offset the store computes for it is 0. -/
theorem listAppointments_normalises_witness :
    (listDefaults (Examples.pageRequest 0 500)).Page ≤ 92233720368547759 ∧
      listDefaults (Examples.pageRequest 0 500) = Examples.pageRequest 1 100 ∧
      0 ≤ listOffset (listDefaults (Examples.pageRequest 0 500)) :=
  ⟨by decide, by decide,
   ((listAppointments_normalises appointmentRepository Examples.emptyService
      (Examples.pageRequest 0 500) (Examples.quietEnv 1 0)).2.2.2.2.2.2.2.2.2.2
      (by decide)).2⟩

end Claims
